import Mathlib

/-!
# Visual History Search: storage engine and search filter

A shallow embedding of `src/src/database.js` (class `SecureDB`) and of the parts of the
background worker that use it.

Conventions of the embedding

* JavaScript strings are Lean `String`s; an absent (`undefined`/`null`) property is `none`.
* Timestamps, dates and colour channels are integers (`Int`); the arithmetic the source does on
  them (subtraction, products of channel differences) is exact on the double-precision numbers
  JavaScript uses as long as the magnitudes stay below `2^26`, which covers every value the
  program itself produces.
* Platform built-ins the repository calls but does not define
  (`String.prototype.toLowerCase`, the Web Crypto AES-GCM primitive, `JSON`, `TextEncoder`)
  are parameters of the definitions that use them. `String.prototype.includes`, `Math.sqrt` on
  integers, the stable `Array.prototype.sort` and the IndexedDB object stores are defined here.
* An asynchronous operation is modelled by the value its promise settles with (`Settled`);
  operations that cannot be rejected in the embedding return their value directly.
* Of IndexedDB the embedding uses that a transaction finishes once its handlers have returned
  with no request pending, so it is over when an `await` on something else resumes, and that a
  database is deleted only when every connection to it is closed.
-/

namespace VisualHistory

/-! ## Data model -/

/-- An RGB colour `{r, g, b}`. -/
structure Color where
  r : Int
  g : Int
  b : Int
deriving DecidableEq, Repr

/-- The object `capturePage` hands to `savePage`: a page record before the store has assigned
its key. -/
structure PageData where
  url : Option String
  title : Option String
  domain : Option String
  timestamp : Int
  dominantColor : Option Color
  textContent : Option String
  hasImages : Bool
  hasVideos : Bool
  hasCode : Bool
deriving DecidableEq, Repr

/-- A record of the `pages` object store: the saved object together with the key the store
generated for it (`keyPath: 'id', autoIncrement: true`). -/
structure PageRecord extends PageData where
  id : Nat
deriving DecidableEq, Repr

/-- The `query` argument of `searchPages`; `none` is a property that is not there. -/
structure Query where
  text : Option String
  color : Option Color
  domain : Option String
  startDate : Option Int
  endDate : Option Int
  limit : Option Nat
deriving DecidableEq, Repr

/-- The query `{}`. -/
def Query.empty : Query :=
  { text := none, color := none, domain := none, startDate := none, endDate := none,
    limit := none }

/-! ## Strings -/

/-- Whether the character list `t` occurs in `s` as a contiguous block, scanning the start
positions of `s` from the left. -/
def occursIn (t : List Char) : List Char → Bool
  | [] => t.isEmpty
  | c :: s => t.isPrefixOf (c :: s) || occursIn t s

/-- `String.prototype.includes`: `s.includes(t)`. -/
def includes (s t : String) : Bool :=
  occursIn t.data s.data

/-! ## Numbers -/

/-- Integer square root by binary search on the result bits: with `bits` bits still to decide and
`r` the part already fixed, the largest `x` of the form `r + (something below 2^bits)` with
`x * x ≤ n`. -/
def isqrtBits (n : Nat) : Nat → Nat → Nat
  | 0, r => r
  | bits + 1, r =>
    if (r + 2 ^ bits) * (r + 2 ^ bits) ≤ n then isqrtBits n bits (r + 2 ^ bits)
    else isqrtBits n bits r

/-- The exponent of the largest power of 4 that is at most `n` (0 for `n < 4`); the first
argument bounds the number of steps. -/
def log4Steps : Nat → Nat → Nat
  | 0, _ => 0
  | steps + 1, n => if 4 ≤ n then log4Steps steps (n / 4) + 1 else 0

/-- The integer part of the base-4 logarithm of `n`, which is the binary exponent of the square
root of `n`. -/
def log4 (n : Nat) : Nat :=
  log4Steps n n

/-- The integer part of the square root of `n`. -/
def isqrt (n : Nat) : Nat :=
  isqrtBits n (log4 n + 1) 0

/-- `Math.sqrt` on a non-negative integer `n`, as the IEEE-754 double that is nearest to the real
square root, given as that double multiplied by `2^52` (an integer for every `n ≥ 1`, since the
result is at least 1 and has a 53-bit significand).

With `e` the binary exponent of the root, the significand is the real root scaled by `2^(52-e)`
and rounded to the nearest integer: `f` is its floor, and it rounds up exactly when the scaled
square exceeds `f^2 + f` (the root of an integer is never half-way between two integers). The
scaling is the one of a double for every `n < 2^106`. -/
def sqrtDouble (n : Nat) : Nat :=
  if n = 0 then 0
  else
    let e := log4 n
    let k := 52 - e
    let scaled := n * 4 ^ k
    let f := isqrt scaled
    let m := if scaled ≤ f * f + f then f else f + 1
    m * 2 ^ e

/-- A double that is an integer `c`, in the scaling of `sqrtDouble`. -/
def doubleOfNat (c : Nat) : Nat :=
  c * 2 ^ 52

/-! ## `SecureDB.colorDistance` -/

/-- `colorDistance(color1, color2)`: 999 when either colour is missing, otherwise the square root
of the sum of the squared channel differences. The result is a double in the scaling of
`sqrtDouble`. -/
def colorDistance (color1 color2 : Option Color) : Nat :=
  match color1, color2 with
  | some c1, some c2 =>
    let r := c1.r - c2.r
    let g := c1.g - c2.g
    let b := c1.b - c2.b
    sqrtDouble (r * r + g * g + b * b).toNat
  | _, _ => doubleOfNat 999

/-! ## `SecureDB.searchPages` -/

/-- The callback of the text filter: `page.title?.toLowerCase().includes(searchText) || ...` for
the fields `title`, `url`, `textContent`; an absent field gives `undefined`, which is falsy. -/
def textMatches (toLowerCase : String → String) (searchText : String) (page : PageRecord) :
    Bool :=
  (match page.title with
    | some s => includes (toLowerCase s) searchText
    | none => false) ||
  (match page.url with
    | some s => includes (toLowerCase s) searchText
    | none => false) ||
  (match page.textContent with
    | some s => includes (toLowerCase s) searchText
    | none => false)

/-- The step `if (text) { ... results.filter(...) }`; the empty string is falsy. -/
def filterText (toLowerCase : String → String) (text : Option String)
    (results : List PageRecord) : List PageRecord :=
  match text with
  | some t =>
    if t ≠ "" then results.filter (textMatches toLowerCase (toLowerCase t)) else results
  | none => results

/-- The step `if (color) { ... colorDistance(page.dominantColor, color) < 50 }`; every colour
object is truthy. -/
def filterColor (color : Option Color) (results : List PageRecord) : List PageRecord :=
  match color with
  | some c =>
    results.filter (fun page => colorDistance page.dominantColor (some c) < doubleOfNat 50)
  | none => results

/-- The step `if (domain) { ... page.domain === domain }`; the empty string is falsy. -/
def filterDomain (domain : Option String) (results : List PageRecord) : List PageRecord :=
  match domain with
  | some d => if d ≠ "" then results.filter (fun page => page.domain = some d) else results
  | none => results

/-- The step `if (startDate) { ... page.timestamp >= startDate }`; the number 0 is falsy. -/
def filterStartDate (startDate : Option Int) (results : List PageRecord) : List PageRecord :=
  match startDate with
  | some s => if s ≠ 0 then results.filter (fun page => page.timestamp ≥ s) else results
  | none => results

/-- The step `if (endDate) { ... page.timestamp <= endDate }`; the number 0 is falsy. -/
def filterEndDate (endDate : Option Int) (results : List PageRecord) : List PageRecord :=
  match endDate with
  | some e => if e ≠ 0 then results.filter (fun page => page.timestamp ≤ e) else results
  | none => results

/-- The filter steps of `searchPages` in source order: the value of `results` when the sort is
reached. -/
def filterPages (toLowerCase : String → String) (all : List PageRecord) (query : Query) :
    List PageRecord :=
  filterEndDate query.endDate
    (filterStartDate query.startDate
      (filterDomain query.domain
        (filterColor query.color
          (filterText toLowerCase query.text all))))

/-- The order `results.sort((a, b) => b.timestamp - a.timestamp)` puts `a` before `b` in. -/
def newerFirst (a b : PageRecord) : Prop :=
  b.timestamp ≤ a.timestamp

instance : DecidableRel newerFirst :=
  fun a b => inferInstanceAs (Decidable (b.timestamp ≤ a.timestamp))

instance : IsTotal PageRecord newerFirst :=
  ⟨fun a b => by unfold newerFirst; exact le_total _ _⟩

instance : IsTrans PageRecord newerFirst :=
  ⟨fun a b c hab hbc => by unfold newerFirst at *; exact le_trans hbc hab⟩

/-- `results.sort((a, b) => b.timestamp - a.timestamp)`. `Array.prototype.sort` is stable, so its
result is the one of any stable sort; insertion from the right is one. -/
def sortNewestFirst (results : List PageRecord) : List PageRecord :=
  results.insertionSort newerFirst

/-- `searchPages(query)` on a store whose `getAll()` yields `all`: destructure the query with
`limit = 50` as default, filter, sort and `slice(0, limit)`. -/
def searchPages (toLowerCase : String → String) (all : List PageRecord) (query : Query) :
    List PageRecord :=
  (sortNewestFirst (filterPages toLowerCase all query)).take (query.limit.getD 50)

/-- The ASCII part of `String.prototype.toLowerCase`, for evaluating examples. -/
def asciiLower (s : String) : String :=
  ⟨s.data.map Char.toLower⟩

/-! ## The platform: bytes, Web Crypto AES-GCM, JSON, TextEncoder -/

/-- An element of a `Uint8Array` or `ArrayBuffer`. -/
abbrev Byte : Type := Fin 256

/-- `new Uint8Array(array)` on an array of non-negative integers: each is stored modulo 256. -/
def toUint8Array (array : List Nat) : List Byte :=
  array.map (fun n => (⟨n % 256, Nat.mod_lt n (by decide)⟩ : Byte))

/-- `Array.from(uint8Array)`: the bytes as an array of numbers. -/
def arrayFrom (bytes : List Byte) : List Nat :=
  bytes.map (fun b => b.val)

/-- Bitwise exclusive or of two bytes. -/
def xorByte (a b : Byte) : Byte :=
  ⟨a.val ^^^ b.val, Nat.xor_lt_two_pow (n := 8) a.isLt b.isLt⟩

/-- Exclusive or of a byte sequence with the key stream `ks`, whose byte at position `i` meets
the first byte of the sequence. -/
def xorStream (ks : Nat → Byte) : Nat → List Byte → List Byte
  | _, [] => []
  | i, b :: bs => xorByte b (ks i) :: xorStream ks (i + 1) bs

/-- What `SecureDB` uses of the platform and the repository does not define. The key type is
`CryptoKey`.

* `keystream key iv i` is byte `i` of the AES counter-mode key stream of GCM for the key and the
  IV, and `tag key iv c` is the 128-bit GCM authentication tag of the ciphertext `c` (no
  associated data is passed): `crypto.subtle.encrypt({name: 'AES-GCM', iv}, key, data)` is the
  plaintext xor the key stream, followed by the tag.
* `jsonStringify` is `JSON.stringify` on a payload, which in this embedding is a string (the
  data URL of a screenshot); `jsonParse` is `JSON.parse` on a text (`none`: it throws the
  `SyntaxError`).
* `textEncode` / `textDecode` are `new TextEncoder().encode` and `new TextDecoder().decode`. -/
structure WebPlatform (CryptoKey : Type) where
  keystream : CryptoKey → List Byte → Nat → Byte
  tag : CryptoKey → List Byte → List Byte → { t : List Byte // t.length = 16 }
  jsonStringify : String → String
  jsonParse : String → Option String
  textEncode : String → List Byte
  textDecode : List Byte → String

/-- The ways a promise of the storage engine is rejected. -/
inductive DBError where
  /-- `OperationError` of `crypto.subtle.decrypt`: the authentication tag does not verify (the
  DecryptionError of the specification). -/
  | decryptionError
  /-- `SyntaxError` of `JSON.parse`. -/
  | syntaxError
  /-- `TypeError`: a method of `null` is called (`this.db.transaction` before `openDB`), `null`
  is passed where a `CryptoKey` is expected, or a value that is not iterable is destructured.
  The code has no error of its own for an engine that is not initialised; this is what the
  NotInitializedError of the specification is in the code. -/
  | typeError
  /-- `InvalidStateError` of `IDBDatabase.transaction`: the connection is closed. A database is
  deleted only when every connection to it is closed. -/
  | invalidStateError
  /-- `DataError` of `crypto.subtle.importKey`: the stored key material cannot be imported. -/
  | dataError
  /-- The `request.error` of a failed `indexedDB.open`. -/
  | openError
  /-- The `request.error` of a failed `indexedDB.deleteDatabase`. -/
  | deleteError
deriving DecidableEq, Repr

/-- How a promise ends: resolved with a value, rejected with an error, or never settled. -/
inductive Settled (α : Type) where
  | resolved (value : α)
  | rejected (error : DBError)
  | pending
deriving DecidableEq, Repr

/-- `crypto.subtle.encrypt({name: 'AES-GCM', iv}, key, data)`: ciphertext, then tag. -/
def aesGcmEncrypt {CryptoKey : Type} (P : WebPlatform CryptoKey) (key : CryptoKey)
    (iv : List Byte) (data : List Byte) : List Byte :=
  xorStream (P.keystream key iv) 0 data ++ (P.tag key iv (xorStream (P.keystream key iv) 0 data)).val

/-- `crypto.subtle.decrypt({name: 'AES-GCM', iv}, key, data)`: the last 16 bytes are the tag; the
promise is rejected when the input is shorter than a tag or the tag is not the one of the
ciphertext, and resolves with the plaintext otherwise. -/
def aesGcmDecrypt {CryptoKey : Type} (P : WebPlatform CryptoKey) (key : CryptoKey)
    (iv : List Byte) (data : List Byte) : Settled (List Byte) :=
  if data.length < 16 then .rejected .decryptionError
  else
    if data.drop (data.length - 16) = (P.tag key iv (data.take (data.length - 16))).val then
      .resolved (xorStream (P.keystream key iv) 0 (data.take (data.length - 16)))
    else .rejected .decryptionError

/-! ## `SecureDB.encrypt`, `SecureDB.decrypt` -/

/-- The object `{iv, data}` that `encrypt` returns and the `screenshots` store keeps: two plain
arrays of numbers. -/
structure EncryptedPayload where
  iv : List Nat
  data : List Nat
deriving DecidableEq, Repr

/-- `encrypt(data)` with `this.encryptionKey = key`. The argument `random` is what
`crypto.getRandomValues` writes into the 12-byte `Uint8Array`. -/
def encrypt {CryptoKey : Type} (P : WebPlatform CryptoKey) (key : CryptoKey)
    (random : List Nat) (data : String) : EncryptedPayload :=
  let iv := toUint8Array random
  let encodedData := P.textEncode (P.jsonStringify data)
  let encryptedData := aesGcmEncrypt P key iv encodedData
  { iv := arrayFrom iv, data := arrayFrom encryptedData }

/-- `decrypt(encryptedObj)` with `this.encryptionKey = key`; a rejection of
`crypto.subtle.decrypt` and an exception of `JSON.parse` reject the promise. -/
def decrypt {CryptoKey : Type} (P : WebPlatform CryptoKey) (key : CryptoKey)
    (encryptedObj : EncryptedPayload) : Settled String :=
  let iv := toUint8Array encryptedObj.iv
  let data := toUint8Array encryptedObj.data
  match aesGcmDecrypt P key iv data with
  | .rejected e => .rejected e
  | .pending => .pending
  | .resolved decryptedData =>
    let decodedData := P.textDecode decryptedData
    match P.jsonParse decodedData with
    | some value => .resolved value
    | none => .rejected .syntaxError

/-! ## The database and `savePage`, `getScreenshot`, `cleanOldEntries` -/

/-- A record of the `screenshots` object store (`keyPath: 'pageId'`). -/
structure ScreenshotBlob where
  pageId : Nat
  screenshot : EncryptedPayload
deriving DecidableEq, Repr

/-- The open database `VisualHistoryDB`: the records of the object stores `pages` and
`screenshots` (each in the order of insertion) and the key generator of `pages`. -/
structure Store where
  pages : List PageRecord
  screenshots : List ScreenshotBlob
  nextId : Nat
deriving DecidableEq, Repr

/-- The database right after `onupgradeneeded` created the object stores; a key generator
starts at 1. -/
def Store.empty : Store :=
  { pages := [], screenshots := [], nextId := 1 }

/-- `savePage(pageData, screenshot)`: `pageStore.add(pageData)` stores the record under the next
generated key. Its success handler is an `async` function. When `screenshot` is falsy (absent
or the empty string) the handler calls `resolve(pageId)` at once. When it is truthy the handler
first awaits `this.encrypt(screenshot)`: the transaction has no request pending at that point
and finishes, with the record committed, before the handler resumes; then
`transaction.objectStore('screenshots')` throws inside the handler, no blob is added,
`resolve(pageId)` is not reached and the promise never settles. The result is the database
afterwards and the outcome of the promise. -/
def savePage {CryptoKey : Type} (P : WebPlatform CryptoKey) (key : CryptoKey)
    (random : List Nat) (db : Store) (pageData : PageData) (screenshot : Option String) :
    Store × Settled Nat :=
  let pageId := db.nextId
  let added : Store :=
    { pages := db.pages ++ [{ toPageData := pageData, id := pageId }],
      screenshots := db.screenshots, nextId := db.nextId + 1 }
  match screenshot with
  | some s =>
    if s ≠ "" then
      let _encryptedScreenshot := encrypt P key random s
      (added, .pending)
    else (added, .resolved pageId)
  | none => (added, .resolved pageId)

/-- `getScreenshot(pageId)`: `store.get(pageId)` finds the blob stored under the key, if any; the
promise resolves with the decrypted screenshot, or with `null` (`none`) when there is no blob.
The success handler is an `async` function that calls `resolve` after `await this.decrypt(...)`:
when `decrypt` is rejected the handler throws, neither `resolve` nor `reject` is called, and the
promise never settles. -/
def getScreenshot {CryptoKey : Type} (P : WebPlatform CryptoKey) (key : CryptoKey)
    (db : Store) (pageId : Nat) : Settled (Option String) :=
  match db.screenshots.find? (fun blob => blob.pageId = pageId) with
  | some blob =>
    match decrypt P key blob.screenshot with
    | .resolved decrypted => .resolved (some decrypted)
    | .rejected _ => .pending
    | .pending => .pending
  | none => .resolved none

/-- The order of the index `timestamp` of `pages`: by timestamp, then by primary key. -/
def indexOrder (a b : PageRecord) : Prop :=
  a.timestamp < b.timestamp ∨ (a.timestamp = b.timestamp ∧ a.id ≤ b.id)

instance : DecidableRel indexOrder :=
  fun a b => inferInstanceAs
    (Decidable (a.timestamp < b.timestamp ∨ (a.timestamp = b.timestamp ∧ a.id ≤ b.id)))

/-- The records a cursor on `index('timestamp')` over `IDBKeyRange.upperBound(cutoffDate)`
visits: those with timestamp at most the bound, in index order. -/
def openCursor (pages : List PageRecord) (cutoffDate : Int) : List PageRecord :=
  (pages.filter (fun page => page.timestamp ≤ cutoffDate)).insertionSort indexOrder

/-- The cursor loop of `cleanOldEntries`: for each visited record, `deletedIds.push(id)` and
`cursor.delete()`, which removes the record with the cursor's primary key from `pages`. -/
def cursorLoop : List PageRecord → List PageRecord → List Nat → List PageRecord × List Nat
  | [], pages, deletedIds => (pages, deletedIds)
  | visited :: rest, pages, deletedIds =>
    cursorLoop rest (pages.filter (fun page => page.id ≠ visited.id))
      (deletedIds ++ [visited.id])

/-- `deletedIds.forEach(id => screenshotStore.delete(id))`. -/
def deleteScreenshots : List Nat → List ScreenshotBlob → List ScreenshotBlob
  | [], screenshots => screenshots
  | id :: rest, screenshots =>
    deleteScreenshots rest (screenshots.filter (fun blob => blob.pageId ≠ id))

/-- `cleanOldEntries(daysToKeep = 30)` when `Date.now()` is `now`: the database afterwards and the
number the promise resolves with, `deletedIds.length`. -/
def cleanOldEntries (now : Int) (daysToKeep : Option Int) (db : Store) : Store × Nat :=
  let cutoffDate := now - (daysToKeep.getD 30) * 24 * 60 * 60 * 1000
  let swept := cursorLoop (openCursor db.pages cutoffDate) db.pages []
  ({ pages := swept.1, screenshots := deleteScreenshots swept.2 db.screenshots,
     nextId := db.nextId }, swept.2.length)

/-! ## What the theorems assume of the platform -/

/-- What `encrypt` and `decrypt` need of `JSON` and the text codecs: a string survives
`JSON.stringify` followed by `JSON.parse`, and the JSON text of a string survives
`TextEncoder.encode` followed by `TextDecoder.decode`. -/
structure WebPlatform.Serializes {CryptoKey : Type} (P : WebPlatform CryptoKey) : Prop where
  parse_stringify : ∀ s : String, P.jsonParse (P.jsonStringify s) = some s
  decode_encode : ∀ s : String,
    P.textDecode (P.textEncode (P.jsonStringify s)) = P.jsonStringify s

/-- An array of numbers with bit `j` of its element `i` flipped (the array itself when it has no
element `i`). -/
def flipBit : List Nat → Nat → Nat → List Nat
  | [], _, _ => []
  | b :: bs, 0, j => (b ^^^ 2 ^ j) :: bs
  | b :: bs, i + 1, j => b :: flipBit bs i j

/-- What tamper detection needs of the authentication tag under the key and the IV: a ciphertext
with one bit flipped does not have the tag of the original. For GCM this is the case whenever the
hash subkey derived from the key is not zero. -/
def TagDetectsBitFlips {CryptoKey : Type} (P : WebPlatform CryptoKey) (key : CryptoKey)
    (iv : List Byte) : Prop :=
  ∀ (c : List Byte) (i j : Nat), i < c.length → j < 8 →
    (P.tag key iv (toUint8Array (flipBit (arrayFrom c) i j))).val ≠ (P.tag key iv c).val

/-! ## A reference platform for evaluating examples -/

/-- Three bytes for the code point of a character, most significant first. -/
def encodeChar (c : Char) : List Byte :=
  toUint8Array [c.toNat / 65536, c.toNat / 256, c.toNat]

/-- The characters of a sequence of three-byte code points; an incomplete group at the end is
dropped. -/
def decodeChars : List Byte → List Char
  | b2 :: b1 :: b0 :: rest => Char.ofNat (b2.val * 65536 + b1.val * 256 + b0.val) :: decodeChars rest
  | _ => []

/-- A stand-in for the platform with a key stream and a tag that are simple arithmetic on the
key, the IV and the position, quoting as the JSON of a string without special characters, and
three bytes per character. It is there to run the definitions on examples; it is not AES. -/
def referencePlatform : WebPlatform Nat where
  keystream := fun key iv i => ⟨(key + 7 * i + 13 * (arrayFrom iv).sum + 41) % 256,
    Nat.mod_lt _ (by decide)⟩
  tag := fun key iv c =>
    ⟨(⟨(key + (arrayFrom iv).sum + (arrayFrom c).sum) % 256, Nat.mod_lt _ (by decide)⟩ : Byte) ::
      List.replicate 15 (⟨(key + c.length) % 256, Nat.mod_lt _ (by decide)⟩ : Byte), by simp⟩
  jsonStringify := fun s => ⟨'"' :: s.data ++ ['"']⟩
  jsonParse := fun text =>
    match text.data with
    | '"' :: rest => if rest.getLast? = some '"' then some ⟨rest.dropLast⟩ else none
    | _ => none
  textEncode := fun s => s.data.flatMap encodeChar
  textDecode := fun bytes => ⟨decodeChars bytes⟩

/-! ## Specification predicates and example data -/

/-- The text predicate in the words of the specification: the lower-cased term occurs as a
substring of the lower-cased title, url or textContent; a field that is absent does not match. -/
def MatchesText (toLowerCase : String → String) (t : String) (p : PageRecord) : Prop :=
  (∃ s, p.title = some s ∧ (toLowerCase t).data <:+: (toLowerCase s).data) ∨
  (∃ s, p.url = some s ∧ (toLowerCase t).data <:+: (toLowerCase s).data) ∨
  (∃ s, p.textContent = some s ∧ (toLowerCase t).data <:+: (toLowerCase s).data)

/-- The colour predicate in the words of the specification: the record has a dominant colour
whose Euclidean distance to `q` is below 50, that is, whose squared distance is below 2500. -/
def WithinColor (q : Color) (p : PageRecord) : Prop :=
  ∃ c, p.dominantColor = some c ∧
    (c.r - q.r) ^ 2 + (c.g - q.g) ^ 2 + (c.b - q.b) ^ 2 < 2500

/-- A record with the given key, title, timestamp and dominant colour and nothing else. -/
def exampleRecord (id : Nat) (title : Option String) (timestamp : Int)
    (dominantColor : Option Color) : PageRecord :=
  { id := id, url := none, title := title, domain := none, timestamp := timestamp,
    dominantColor := dominantColor, textContent := none, hasImages := false,
    hasVideos := false, hasCode := false }

/-- A record with the given key, domain and timestamp and nothing else. -/
def exampleVisit (id : Nat) (domain : String) (timestamp : Int) : PageRecord :=
  { id := id, url := none, title := none, domain := some domain, timestamp := timestamp,
    dominantColor := none, textContent := none, hasImages := false,
    hasVideos := false, hasCode := false }

/-- The three titled records of the text-filter example. -/
def titledExamples : List PageRecord :=
  [exampleRecord 1 (some "Alpha Guide") 1000 none,
   exampleRecord 2 (some "Beta Notes") 2000 none,
   exampleRecord 3 (some "alphabet soup") 3000 none]

/-- Records coloured {10,10,10}, {100,100,100} and {30,40,0}. -/
def colourExamples : List PageRecord :=
  [exampleRecord 1 none 0 (some ⟨10, 10, 10⟩),
   exampleRecord 2 none 0 (some ⟨100, 100, 100⟩),
   exampleRecord 3 none 0 (some ⟨30, 40, 0⟩)]

/-- Visits of three domains that differ in a subdomain or in letter case. -/
def domainExamples : List PageRecord :=
  [exampleVisit 1 "a.example" 10,
   exampleVisit 2 "b.example" 20,
   exampleVisit 3 "A.example" 30]

/-- A page visit captured at `timestamp` with nothing else known about it. -/
def exampleCapture (timestamp : Int) : PageData :=
  { url := none, title := none, domain := none, timestamp := timestamp,
    dominantColor := none, textContent := none, hasImages := false,
    hasVideos := false, hasCode := false }

/-- A database with two records, captured 69 and 71 days after the epoch, and under the key of
each a blob that is an encryption under the key 5. -/
def retentionExample : Store :=
  { pages := [{ toPageData := exampleCapture 5961600000, id := 1 },
              { toPageData := exampleCapture 6134400000, id := 2 }],
    screenshots :=
      [{ pageId := 1,
         screenshot := encrypt referencePlatform 5 [12, 11, 10, 9, 8, 7, 6, 5, 4, 3, 2, 1]
           "old shot" },
       { pageId := 2,
         screenshot := encrypt referencePlatform 5 [1, 2, 3, 4, 5, 6, 7, 8, 9, 10, 11, 12]
           "new shot" }],
    nextId := 3 }

/-! ## `getDominantColor` -/

/-- The least number of doublings of `r` after which it is at least `n * 2^52`, found in at most
`steps` steps. -/
def normalizeShift : Nat → Nat → Nat → Nat
  | 0, _, _ => 0
  | steps + 1, r, n => if n * 2 ^ 52 ≤ r then 0 else normalizeShift steps (2 * r) n + 1

/-- `Math.round(r / n)` for integers `r ≥ 0` and `n ≥ 1`.

The quotient `r / n` is the double nearest to the rational `r / n`: with `s` the shift that
brings the quotient into `[2^52, 2^53)`, its 53-bit significand `m` is `r * 2^s / n` rounded to
the nearest integer, a tie going to the even one, and the quotient is `m / 2^s`. `Math.round`
then gives the nearest integer, a tie going up: the integer part of `m / 2^s + 1/2`. The scaling
is the one of a double as long as the quotient is below `2^53`. -/
def mathRoundDiv (r n : Nat) : Nat :=
  if r = 0 then 0
  else
    let s := normalizeShift (52 + n) r n
    let f := r * 2 ^ s / n
    let rest := r * 2 ^ s % n
    let m := if 2 * rest < n then f else if n < 2 * rest then f + 1 else f + f % 2
    (2 * m + 2 ^ s) / 2 ^ (s + 1)

/-- One pixel of a decoded image: red, green, blue and alpha. -/
structure Pixel where
  r : Byte
  g : Byte
  b : Byte
  a : Byte
deriving DecidableEq, Repr

/-- What the `Image` element holds once `onload` fires: the dimensions and the pixel at column
`x` and row `y` for `x < width` and `y < height`. -/
structure DecodedImage where
  width : Nat
  height : Nat
  pixel : Nat → Nat → Pixel

/-- The pixel of the canvas the image was drawn on at `(0, 0)`; outside the canvas
`getImageData` reads transparent black. -/
def canvasPixel (img : DecodedImage) (x y : Nat) : Pixel :=
  if x < img.width ∧ y < img.height then img.pixel x y else ⟨0, 0, 0, 0⟩

/-- The coordinates `ctx.getImageData(sx, sy, sw, sh)` reads, row by row. -/
def rectangle (sx sy sw sh : Nat) : List (Nat × Nat) :=
  (List.range sh).flatMap (fun dy => (List.range sw).map (fun dx => (sx + dx, sy + dy)))

/-- `ctx.getImageData(sx, sy, sw, sh).data`: four numbers for each pixel of the rectangle. -/
def getImageData (img : DecodedImage) (sx sy sw sh : Nat) : List Nat :=
  (rectangle sx sy sw sh).flatMap (fun c =>
    [(canvasPixel img c.1 c.2).r.val, (canvasPixel img c.1 c.2).g.val,
     (canvasPixel img c.1 c.2).b.val, (canvasPixel img c.1 c.2).a.val])

/-- The loop `for (let i = 0; i < data.length; i += 4) { r += data[i]; g += data[i + 1];
b += data[i + 2]; }` from the sums so far. -/
def sumChannels : List Nat → Nat × Nat × Nat → Nat × Nat × Nat
  | r :: g :: b :: _ :: rest, (sumR, sumG, sumB) => sumChannels rest (sumR + r, sumG + g, sumB + b)
  | _, sums => sums

/-- The left edge `Math.max(0, center - sampleSize)` of the sampled rectangle. -/
def sampleStart (center sampleSize : Nat) : Nat :=
  (max 0 ((center : Int) - (sampleSize : Int))).toNat

/-- `getDominantColor(dataUrl)` when loading the data URL gives `loaded` (`none`: `onerror`
fires). The result is the value the promise resolves with; it is `none` when the handler throws
and the promise never settles, which `getImageData` causes for a width or height of 0. -/
def getDominantColor (loaded : Option DecodedImage) : Option Color :=
  match loaded with
  | none => some ⟨128, 128, 128⟩
  | some img =>
    let centerX := img.width / 2
    let centerY := img.height / 2
    let sampleSize := 50
    let sw := min (sampleSize * 2) img.width
    let sh := min (sampleSize * 2) img.height
    if sw = 0 ∨ sh = 0 then none
    else
      let data := getImageData img (sampleStart centerX sampleSize)
        (sampleStart centerY sampleSize) sw sh
      let sums := sumChannels data (0, 0, 0)
      let pixels := data.length / 4
      some ⟨(mathRoundDiv sums.1 pixels : Nat), (mathRoundDiv sums.2.1 pixels : Nat),
        (mathRoundDiv sums.2.2 pixels : Nat)⟩

/-- An image of the given size whose pixel at `(x, y)` is `(x + y, 2 x, 3 y, 255)` modulo 256. -/
def gradientImage (width height : Nat) : DecodedImage :=
  { width := width, height := height,
    pixel := fun x y =>
      ⟨⟨(x + y) % 256, Nat.mod_lt _ (by decide)⟩, ⟨(2 * x) % 256, Nat.mod_lt _ (by decide)⟩,
       ⟨(3 * y) % 256, Nat.mod_lt _ (by decide)⟩, 255⟩ }

/-- The coordinates `getDominantColor` reads from an image, in the order of the loop. -/
def sampledPixels (img : DecodedImage) : List (Nat × Nat) :=
  rectangle (sampleStart (img.width / 2) 50) (sampleStart (img.height / 2) 50)
    (min (50 * 2) img.width) (min (50 * 2) img.height)

/-- In the words of the specification: `m` is the arithmetic mean of `values` rounded to the
nearest integer, a mean half-way between two integers going up; that is,
`m - 1/2 ≤ mean < m + 1/2`. -/
def IsRoundedMean (m : Int) (values : List Nat) : Prop :=
  (2 * m - 1) * (values.length : Int) ≤ 2 * (values.sum : Int) ∧
  2 * (values.sum : Int) < (2 * m + 1) * (values.length : Int)

/-! ## The worker: `chrome.storage.local`, the engine object and its initialisation -/

/-- `chrome.storage.local`, with the keys the extension uses; `none` is a key that is not set.
`Jwk` is the exported form of a key. -/
structure StorageArea (Jwk : Type) where
  enabled : Option Bool
  daysToKeep : Option Int
  excludeIncognito : Option Bool
  excludeDomains : Option (List String)
  captureInterval : Option Int
  encryptionKey : Option Jwk
deriving DecidableEq, Repr

/-- The storage after `chrome.storage.local.clear()`. -/
def StorageArea.empty {Jwk : Type} : StorageArea Jwk :=
  { enabled := none, daysToKeep := none, excludeIncognito := none, excludeDomains := none,
    captureInterval := none, encryptionKey := none }

/-- `chrome.storage.local.get(keys)`: the object that has, of the keys asked for, those that are
set. -/
def StorageArea.get {Jwk : Type} (keys : List String) (storage : StorageArea Jwk) :
    StorageArea Jwk :=
  { enabled := if "enabled" ∈ keys then storage.enabled else none,
    daysToKeep := if "daysToKeep" ∈ keys then storage.daysToKeep else none,
    excludeIncognito := if "excludeIncognito" ∈ keys then storage.excludeIncognito else none,
    excludeDomains := if "excludeDomains" ∈ keys then storage.excludeDomains else none,
    captureInterval := if "captureInterval" ∈ keys then storage.captureInterval else none,
    encryptionKey := if "encryptionKey" ∈ keys then storage.encryptionKey else none }

/-- The key operations of Web Crypto that `initEncryption` calls: `importKey('jwk', material,
{name: 'AES-GCM', length}, ...)` (`none`: the promise is rejected), `generateKey({name:
'AES-GCM', length}, ...)` from the entropy the platform draws, and `exportKey('jwk', key)`. -/
structure KeyPlatform (CryptoKey Jwk : Type) where
  importKey : Jwk → Nat → Option CryptoKey
  generateKey : Nat → List Nat → CryptoKey
  exportKey : CryptoKey → Jwk

/-- The state the background worker runs in.

* `storage` and `database` belong to the browser and outlive the worker: `chrome.storage.local`
  and the IndexedDB database `VisualHistoryDB` (`none`: there is no such database).
* `connection`, `encryptionKey` and `isInitialized` are the variables of the worker: whether
  `this.db` holds the connection that `openDB` stored (`false`: it is `null`),
  `this.encryptionKey` (`none`: `null`), and the flag of `background.js`. -/
structure Worker (CryptoKey Jwk : Type) where
  storage : StorageArea Jwk
  database : Option Store
  connection : Bool
  encryptionKey : Option CryptoKey
  isInitialized : Bool
deriving DecidableEq, Repr

/-- A worker that has just been started on a browser profile: `new SecureDB()` and
`isInitialized = false`. -/
def Worker.start {CryptoKey Jwk : Type} (storage : StorageArea Jwk) (database : Option Store) :
    Worker CryptoKey Jwk :=
  { storage := storage, database := database, connection := false, encryptionKey := none,
    isInitialized := false }

/-- The worker after the browser stopped it and started it again: its variables have their
initial values, the storage and the database are as they were. -/
def Worker.restart {CryptoKey Jwk : Type} (w : Worker CryptoKey Jwk) : Worker CryptoKey Jwk :=
  Worker.start w.storage w.database

/-- `initEncryption()`: the outcome of the promise and the worker afterwards. `entropy` is what
`generateKey` draws if it is called. -/
def SecureDB.initEncryption {CryptoKey Jwk : Type} (K : KeyPlatform CryptoKey Jwk)
    (entropy : List Nat) (w : Worker CryptoKey Jwk) : Settled Unit × Worker CryptoKey Jwk :=
  match w.storage.encryptionKey with
  | some stored =>
    match K.importKey stored 256 with
    | some key => (.resolved (), { w with encryptionKey := some key })
    | none => (.rejected .dataError, w)
  | none =>
    let key := K.generateKey 256 entropy
    let exportedKey := K.exportKey key
    (.resolved (),
      { w with encryptionKey := some key,
               storage := { w.storage with encryptionKey := some exportedKey } })

/-- `openDB()`: `indexedDB.open` succeeds or, when `openFails`, fails; on success
`onupgradeneeded` has created the object stores of a database that did not exist, and `this.db`
holds the connection. -/
def SecureDB.openDB {CryptoKey Jwk : Type} (openFails : Bool) (w : Worker CryptoKey Jwk) :
    Settled Unit × Worker CryptoKey Jwk :=
  if openFails then (.rejected .openError, w)
  else (.resolved (), { w with database := some (w.database.getD Store.empty),
                               connection := true })

/-- `initializeDB()` of `background.js`: `initEncryption`, `openDB`, `isInitialized = true`; an
exception on the way is caught and logged. -/
def initializeDB {CryptoKey Jwk : Type} (K : KeyPlatform CryptoKey Jwk) (entropy : List Nat)
    (openFails : Bool) (w : Worker CryptoKey Jwk) : Worker CryptoKey Jwk :=
  match SecureDB.initEncryption K entropy w with
  | (.resolved _, w1) =>
    match SecureDB.openDB openFails w1 with
    | (.resolved _, w2) => { w2 with isInitialized := true }
    | (_, w2) => w2
  | (_, w1) => w1

/-- `ensureInitialized()` of `background.js`. -/
def ensureInitialized {CryptoKey Jwk : Type} (K : KeyPlatform CryptoKey Jwk)
    (entropy : List Nat) (openFails : Bool) (w : Worker CryptoKey Jwk) : Worker CryptoKey Jwk :=
  if w.isInitialized then w else initializeDB K entropy openFails w

/-- The database a transaction of `this.db` works on: `this.db.transaction(...)` throws a
`TypeError` when `this.db` is `null`, and an `InvalidStateError` when the database of the
connection has been deleted. -/
def SecureDB.transaction {CryptoKey Jwk : Type} (w : Worker CryptoKey Jwk) :
    Except DBError Store :=
  if w.connection then
    match w.database with
    | some store => .ok store
    | none => .error .invalidStateError
  else .error .typeError

/-- `encrypt(data)` of the engine: `crypto.subtle.encrypt` is rejected with a `TypeError` when
`this.encryptionKey` is `null`. -/
def SecureDB.encrypt {CryptoKey Jwk : Type} (P : WebPlatform CryptoKey)
    (w : Worker CryptoKey Jwk) (random : List Nat) (data : String) :
    Settled EncryptedPayload :=
  match w.encryptionKey with
  | some key => .resolved (VisualHistory.encrypt P key random data)
  | none => .rejected .typeError

/-- `decrypt(encryptedObj)` of the engine: `crypto.subtle.decrypt` is rejected with a
`TypeError` when `this.encryptionKey` is `null`. -/
def SecureDB.decrypt {CryptoKey Jwk : Type} (P : WebPlatform CryptoKey)
    (w : Worker CryptoKey Jwk) (encryptedObj : EncryptedPayload) : Settled String :=
  match w.encryptionKey with
  | some key => VisualHistory.decrypt P key encryptedObj
  | none => .rejected .typeError

/-- `savePage(pageData, screenshot)` of the engine. The transaction is opened first; then the
record is added; with a truthy screenshot the success handler, an `async` function, awaits
`this.encrypt(screenshot)`, and whether that resolves or is rejected (no key) the handler
throws afterwards and the promise never settles, while the record stays. -/
def SecureDB.savePage {CryptoKey Jwk : Type} (P : WebPlatform CryptoKey) (random : List Nat)
    (w : Worker CryptoKey Jwk) (pageData : PageData) (screenshot : Option String) :
    Settled Nat × Worker CryptoKey Jwk :=
  match SecureDB.transaction w with
  | .error e => (.rejected e, w)
  | .ok store =>
    let added : Store :=
      { pages := store.pages ++ [{ toPageData := pageData, id := store.nextId }],
        screenshots := store.screenshots, nextId := store.nextId + 1 }
    if screenshot.isSome ∧ screenshot ≠ some "" then
      match w.encryptionKey with
      | some key =>
        let saved := VisualHistory.savePage P key random store pageData screenshot
        (saved.2, { w with database := some saved.1 })
      | none => (.pending, { w with database := some added })
    else (.resolved store.nextId, { w with database := some added })

/-- `searchPages(query)` of the engine. -/
def SecureDB.searchPages {CryptoKey Jwk : Type} (toLowerCase : String → String)
    (w : Worker CryptoKey Jwk) (query : Query) : Settled (List PageRecord) :=
  match SecureDB.transaction w with
  | .error e => .rejected e
  | .ok store => .resolved (VisualHistory.searchPages toLowerCase store.pages query)

/-- `getScreenshot(pageId)` of the engine; a blob that is found is decrypted with
`this.encryptionKey`, and the promise never settles when that fails. -/
def SecureDB.getScreenshot {CryptoKey Jwk : Type} (P : WebPlatform CryptoKey)
    (w : Worker CryptoKey Jwk) (pageId : Nat) : Settled (Option String) :=
  match SecureDB.transaction w with
  | .error e => .rejected e
  | .ok store =>
    match w.encryptionKey with
    | some key => VisualHistory.getScreenshot P key store pageId
    | none =>
      match store.screenshots.find? (fun blob => blob.pageId = pageId) with
      | some _ => .pending
      | none => .resolved none

/-- `cleanOldEntries(daysToKeep)` of the engine when `Date.now()` is `now`. -/
def SecureDB.cleanOldEntries {CryptoKey Jwk : Type} (now : Int) (daysToKeep : Option Int)
    (w : Worker CryptoKey Jwk) : Settled Nat × Worker CryptoKey Jwk :=
  match SecureDB.transaction w with
  | .error e => (.rejected e, w)
  | .ok store =>
    let cleaned := VisualHistory.cleanOldEntries now daysToKeep store
    (.resolved cleaned.2, { w with database := some cleaned.1 })

/-- `getStats()` of the engine: the `totalPages` of the object it resolves with. -/
def SecureDB.getStats {CryptoKey Jwk : Type} (w : Worker CryptoKey Jwk) : Settled Nat :=
  match SecureDB.transaction w with
  | .error e => .rejected e
  | .ok store => .resolved store.pages.length

/-- `deleteAllData()`: `indexedDB.deleteDatabase(this.dbName)`; its success handler calls
`chrome.storage.local.clear`, whose callback resolves the promise, and its error handler
rejects it. The method does not touch `this.db` or `this.encryptionKey` and does not close the
connection. A database is deleted only when every connection to it is closed: while `this.db`
holds the open connection the request stays blocked (the code has no handler for `blocked` or
`versionchange`), so nothing is deleted, nothing is cleared and the promise does not settle.
Without an open connection the deletion succeeds or, when `deleteFails`, fails. What becomes
of a blocked request when the browser stops the worker is not part of the embedding. -/
def SecureDB.deleteAllData {CryptoKey Jwk : Type} (deleteFails : Bool)
    (w : Worker CryptoKey Jwk) : Settled Unit × Worker CryptoKey Jwk :=
  if w.connection then (.pending, w)
  else if deleteFails then (.rejected .deleteError, w)
  else (.resolved (), { w with database := none, storage := StorageArea.empty })

/-- The message handler of `background.js` for `{action: 'search', query}`:
`ensureInitialized()`, then `db.searchPages(request.query)`; the outcome of the search and the
worker afterwards. -/
def onSearchMessage {CryptoKey Jwk : Type} (K : KeyPlatform CryptoKey Jwk)
    (toLowerCase : String → String) (entropy : List Nat) (openFails : Bool)
    (w : Worker CryptoKey Jwk) (query : Query) :
    Settled (List PageRecord) × Worker CryptoKey Jwk :=
  (SecureDB.searchPages toLowerCase (ensureInitialized K entropy openFails w) query,
    ensureInitialized K entropy openFails w)

/-- The message handler of `background.js` for `{action: 'deleteAllData'}`:
`ensureInitialized()`, then `db.deleteAllData()`. -/
def onDeleteAllDataMessage {CryptoKey Jwk : Type} (K : KeyPlatform CryptoKey Jwk)
    (entropy : List Nat) (openFails deleteFails : Bool) (w : Worker CryptoKey Jwk) :
    Settled Unit × Worker CryptoKey Jwk :=
  SecureDB.deleteAllData deleteFails (ensureInitialized K entropy openFails w)

/-- A stand-in for the key operations: keys are numbers, the exported form of a key is the key
plus 1000, and a key is generated as the sum of the entropy plus the length. -/
def referenceKeys : KeyPlatform Nat Nat where
  importKey := fun material _ => if 1000 ≤ material then some (material - 1000) else none
  generateKey := fun length entropy => entropy.sum + length
  exportKey := fun key => key + 1000

/-- A worker that was started on an empty profile, initialised itself and ran `savePage` for
one capture with a screenshot: the record is stored. -/
def busyWorker : Worker Nat Nat :=
  (SecureDB.savePage referencePlatform [1, 2, 3, 4, 5, 6, 7, 8, 9, 10, 11, 12]
    (ensureInitialized referenceKeys [3, 1, 4, 1, 5] false
      (Worker.start StorageArea.empty none))
    (exampleCapture 5961600000) (some "old shot")).2

/-! ## `capturePage` of `background.js` -/

/-- The `tab` the `onUpdated` listener passes to `capturePage`. -/
structure Tab where
  id : Nat
  windowId : Nat
  url : String
  title : Option String
  incognito : Bool
deriving DecidableEq, Repr

/-- The object `extractPageData` of `content.js` returns. -/
structure PageInfo where
  textContent : Option String
  hasImages : Bool
  hasVideos : Bool
  hasCode : Bool
deriving DecidableEq, Repr

/-- What `chrome.tabs.sendMessage(tab.id, {action: 'getPageData'})` settles with: a rejection
(no receiver), the object the content script passed to `sendResponse`, or an array. -/
inductive MessageReply where
  | rejected
  | object (pageData : PageInfo)
  | array (items : List (Option PageInfo))
deriving DecidableEq, Repr

/-- What one run of `capturePage` gets from outside the worker: the entropy and the outcome of
`indexedDB.open` if the engine initialises, the `hostname` of `new URL(url)` (`none`: the
constructor throws), the data URL `captureVisibleTab` resolves with (`none`: it is rejected),
the reply to the `getPageData` message, what loading a data URL into an `Image` gives, the
value of `Date.now()` and the random values of the nonce. -/
structure CaptureEnv where
  entropy : List Nat
  openFails : Bool
  hostname : String → Option String
  screenshot : Option String
  reply : MessageReply
  load : String → Option DecodedImage
  now : Int
  random : List Nat

/-- What `capturePage` does to the world outside its variables, in the order it does it. -/
inductive Effect where
  /-- `setTimeout(resolve, delay)`. -/
  | setTimeout (delay : Int)
  /-- The screenshot collaborator `chrome.tabs.captureVisibleTab(windowId, ...)`. -/
  | captureVisibleTab (windowId : Nat)
  /-- The metadata collaborator `chrome.tabs.sendMessage(tabId, {action: 'getPageData'})`. -/
  | sendMessage (tabId : Nat)
  /-- The call `db.savePage(pageRecord, screenshot)`. -/
  | savePage (pageRecord : PageData) (screenshot : String)
  | consoleWarn
  | consoleError
  | consoleLog
deriving DecidableEq, Repr

/-- `s.startsWith(searchString)`. -/
def startsWith (s searchString : String) : Bool :=
  searchString.data.isPrefixOf s.data

/-- `s.substring(0, n)`: the first `n` characters. -/
def substringTo (s : String) (n : Nat) : String :=
  ⟨s.data.take n⟩

/-- The three ways the guards of `capturePage` end: one of them returns, `new URL(tab.url)`
throws, or all are passed and `url.hostname` is known. -/
inductive Gate where
  | skip
  | throws
  | pass (hostname : String)
deriving DecidableEq, Repr

/-- The guards of `capturePage` in source order: `!settings.enabled`,
`settings.excludeIncognito && tab.incognito`, `new URL(tab.url)`,
`settings.excludeDomains?.includes(url.hostname)`, `!tab.url.startsWith('http')`, and the two
`chrome` prefixes. -/
def policyGate {Jwk : Type} (hostname : String → Option String) (settings : StorageArea Jwk)
    (tab : Tab) : Gate :=
  if settings.enabled ≠ some true then .skip
  else if settings.excludeIncognito = some true ∧ tab.incognito = true then .skip
  else
    match hostname tab.url with
    | none => .throws
    | some host =>
      if (match settings.excludeDomains with
          | some domains => decide (host ∈ domains)
          | none => false) = true then .skip
      else if ¬ startsWith tab.url "http" = true then .skip
      else if startsWith tab.url "chrome://" = true ∨
          startsWith tab.url "chrome-extension://" = true then .skip
      else .pass host

/-- `const [pageData] = await chrome.tabs.sendMessage(...).catch(() => [null])`: a rejection
becomes `[null]`; an array gives its first element (`undefined` when it is empty); an object
that is not an array is not iterable, and the destructuring throws a `TypeError`. -/
def firstOfReply (reply : MessageReply) : Except DBError (Option PageInfo) :=
  match reply with
  | .rejected => .ok none
  | .array items => .ok items.head?.join
  | .object _ => .error .typeError

/-- The object `pageRecord` that `capturePage` builds. -/
def buildPageRecord (tab : Tab) (hostname : String) (now : Int) (dominantColor : Color)
    (pageData : PageInfo) : PageData :=
  { url := some tab.url,
    title := some (match tab.title with
      | some title => if title ≠ "" then title else "Untitled"
      | none => "Untitled"),
    domain := some hostname,
    timestamp := now,
    dominantColor := some dominantColor,
    textContent := pageData.textContent.map (fun text => substringTo text 5000),
    hasImages := pageData.hasImages,
    hasVideos := pageData.hasVideos,
    hasCode := pageData.hasCode }

/-- `capturePage` from the settle delay on, for a tab that passed the guards: the worker
afterwards and the effects. An exception is caught by the `catch` of `capturePage` and logged;
when `getDominantColor` or `savePage` never settles, nothing more happens. -/
def captureAfterGate {CryptoKey Jwk : Type} (P : WebPlatform CryptoKey) (env : CaptureEnv)
    (tab : Tab) (w : Worker CryptoKey Jwk) (settings : StorageArea Jwk) (hostname : String) :
    Worker CryptoKey Jwk × List Effect :=
  let delay := match settings.captureInterval with
    | some interval => if interval ≠ 0 then interval else 3000
    | none => 3000
  match env.screenshot with
  | none => (w, [.setTimeout delay, .captureVisibleTab tab.windowId, .consoleError])
  | some screenshot =>
    match firstOfReply env.reply with
    | .error _ =>
      (w, [.setTimeout delay, .captureVisibleTab tab.windowId, .sendMessage tab.id,
        .consoleError])
    | .ok none =>
      (w, [.setTimeout delay, .captureVisibleTab tab.windowId, .sendMessage tab.id,
        .consoleWarn])
    | .ok (some pageData) =>
      match getDominantColor (env.load screenshot) with
      | none =>
        (w, [.setTimeout delay, .captureVisibleTab tab.windowId, .sendMessage tab.id])
      | some dominantColor =>
        let pageRecord := buildPageRecord tab hostname env.now dominantColor pageData
        match SecureDB.savePage P env.random w pageRecord (some screenshot) with
        | (.resolved _, w2) =>
          (w2, [.setTimeout delay, .captureVisibleTab tab.windowId, .sendMessage tab.id,
            .savePage pageRecord screenshot, .consoleLog])
        | (.rejected _, w2) =>
          (w2, [.setTimeout delay, .captureVisibleTab tab.windowId, .sendMessage tab.id,
            .savePage pageRecord screenshot, .consoleError])
        | (.pending, w2) =>
          (w2, [.setTimeout delay, .captureVisibleTab tab.windowId, .sendMessage tab.id,
            .savePage pageRecord screenshot])

/-- `capturePage(tab)` of `src/src/background.js`: `ensureInitialized()`, the settings read with
`chrome.storage.local.get(['enabled', 'excludeIncognito', 'excludeDomains'])`, the guards, and
the capture. The result is the worker afterwards and the effects in order. -/
def capturePage {CryptoKey Jwk : Type} (K : KeyPlatform CryptoKey Jwk)
    (P : WebPlatform CryptoKey) (env : CaptureEnv) (tab : Tab) (w : Worker CryptoKey Jwk) :
    Worker CryptoKey Jwk × List Effect :=
  let w1 := ensureInitialized K env.entropy env.openFails w
  let settings := w1.storage.get ["enabled", "excludeIncognito", "excludeDomains"]
  match policyGate env.hostname settings tab with
  | .skip => (w1, [])
  | .throws => (w1, [.consoleError])
  | .pass hostname => captureAfterGate P env tab w1 settings hostname

/-- The page records of the database of a worker; none when there is no database. -/
def Worker.pages {CryptoKey Jwk : Type} (w : Worker CryptoKey Jwk) : List PageRecord :=
  match w.database with
  | some store => store.pages
  | none => []

/-- The screenshot blobs of the database of a worker; none when there is no database. -/
def Worker.screenshots {CryptoKey Jwk : Type} (w : Worker CryptoKey Jwk) :
    List ScreenshotBlob :=
  match w.database with
  | some store => store.screenshots
  | none => []

/-- Whether an effect is a call of the screenshot or of the metadata collaborator. -/
def Effect.isCollaboratorCall : Effect → Bool
  | .captureVisibleTab _ => true
  | .sendMessage _ => true
  | _ => false

/-- Whether an effect is a call of `savePage`. -/
def Effect.isSavePage : Effect → Bool
  | .savePage _ _ => true
  | _ => false

/-- In the words of the specification: the scheme of a url, the part before the first colon in
lower case, when the url has a colon. -/
def urlScheme (url : String) : Option String :=
  if ':' ∈ url.data then some (asciiLower ⟨url.data.takeWhile (fun c => c ≠ ':')⟩) else none

/-- A stand-in for `new URL(url).hostname`: the part between `://` and the next slash, colon,
question mark or hash, for a url with a scheme that is followed by `//`. -/
def referenceHostname (url : String) : Option String :=
  match (url.data.dropWhile (fun c => c ≠ ':')) with
  | ':' :: '/' :: '/' :: rest =>
    some ⟨rest.takeWhile (fun c => c ≠ '/' ∧ c ≠ ':' ∧ c ≠ '?' ∧ c ≠ '#')⟩
  | _ => none

/-- The settings `onInstalled` writes, with a capture interval of 5000 ms instead of 3000. -/
def exampleSettings : StorageArea Nat :=
  { enabled := some true, daysToKeep := some 30, excludeIncognito := some true,
    excludeDomains := some ["private.example"], captureInterval := some 5000,
    encryptionKey := none }

/-- A run in which the screenshot is taken, the content script answers with the object of
`extractPageData`, as `content.js` does, and the screenshot decodes to a small image. -/
def exampleEnv : CaptureEnv :=
  { entropy := [3, 1, 4, 1, 5], openFails := false, hostname := referenceHostname,
    screenshot := some "data:image/jpeg;base64,/9j/4AAQ",
    reply := .object { textContent := some "Alpha guide to everything", hasImages := true,
                       hasVideos := false, hasCode := true },
    load := fun _ => some (gradientImage 3 2), now := 7000000000,
    random := [1, 2, 3, 4, 5, 6, 7, 8, 9, 10, 11, 12] }

/-- A tab showing a page over https. -/
def exampleTab : Tab :=
  { id := 7, windowId := 2, url := "https://news.example/today", title := some "Today",
    incognito := false }

/-- The run of `exampleEnv` with a content script that answers with an array holding the
object. -/
def arrayReplyEnv : CaptureEnv :=
  { exampleEnv with
    reply := .array [some { textContent := some "Alpha guide to everything", hasImages := true,
                            hasVideos := false, hasCode := true }] }

/-- The run of `arrayReplyEnv` with a screenshot that does not load as an image. -/
def undecodableEnv : CaptureEnv :=
  { arrayReplyEnv with load := fun _ => none }

/-- A tab whose url starts with `http` and has the scheme `httpx`. -/
def httpxTab : Tab :=
  { exampleTab with url := "httpx://news.example/today" }

/-- A tab on a domain that `exampleSettings` excludes. -/
def excludedTab : Tab :=
  { id := 8, windowId := 2, url := "https://private.example/inbox", title := none,
    incognito := false }

/-- A worker that has just started, with `exampleSettings` persisted and no database yet. -/
def freshWorker : Worker Nat Nat :=
  Worker.start exampleSettings none

/-! ## Runs of the database and of the worker -/

/-- A call that writes to the database: `savePage(pageData, screenshot)` with the random values
of its nonce, or `cleanOldEntries(daysToKeep)` run when `Date.now()` is `now`. -/
inductive StoreOperation where
  | savePage (random : List Nat) (pageData : PageData) (screenshot : Option String)
  | cleanOldEntries (now : Int) (daysToKeep : Option Int)
deriving DecidableEq, Repr

/-- The database after one operation. -/
def StoreOperation.apply {CryptoKey : Type} (P : WebPlatform CryptoKey) (key : CryptoKey)
    (db : Store) : StoreOperation → Store
  | .savePage random pageData screenshot =>
    (VisualHistory.savePage P key random db pageData screenshot).1
  | .cleanOldEntries now daysToKeep => (VisualHistory.cleanOldEntries now daysToKeep db).1

/-- The database reached from the empty one by the operations in order, under one key. -/
def reachedStore {CryptoKey : Type} (P : WebPlatform CryptoKey) (key : CryptoKey)
    (operations : List StoreOperation) : Store :=
  operations.foldl (StoreOperation.apply P key) Store.empty

/-- Something that happens to the worker and writes no setting: a tab finishes loading and the
`onUpdated` listener runs `capturePage(tab)`, or the browser stops the worker and starts it
again. -/
inductive WorkerEvent where
  | tabComplete (env : CaptureEnv) (tab : Tab)
  | restart

/-- The worker after the events in order, and the effects of all the `capturePage` runs. -/
def runEvents {CryptoKey Jwk : Type} (K : KeyPlatform CryptoKey Jwk)
    (P : WebPlatform CryptoKey) : List WorkerEvent → Worker CryptoKey Jwk →
    Worker CryptoKey Jwk × List Effect
  | [], w => (w, [])
  | .tabComplete env tab :: rest, w =>
    let captured := capturePage K P env tab w
    let later := runEvents K P rest captured.1
    (later.1, captured.2 ++ later.2)
  | .restart :: rest, w => runEvents K P rest w.restart

/-! ## `searchPages` of the single-file `background.js` -/

/-- The callback of the colour filter of the single-file `searchPages`, which computes the
distance in place: `false` for a page without `dominantColor` (inside `if (color)` the colour of
the query is truthy), otherwise whether the root of the sum of the squared channel differences
is below 50. -/
def inlineColorMatches (color : Color) (page : PageRecord) : Bool :=
  match page.dominantColor with
  | none => false
  | some pageColor =>
    let r := pageColor.r - color.r
    let g := pageColor.g - color.g
    let b := pageColor.b - color.b
    let distance := sqrtDouble (r * r + g * g + b * b).toNat
    decide (distance < doubleOfNat 50)

/-- The step `if (color) { results = results.filter(...) }` of the single-file `searchPages`. -/
def inlineFilterColor (color : Option Color) (results : List PageRecord) : List PageRecord :=
  match color with
  | some c => results.filter (inlineColorMatches c)
  | none => results

/-- `searchPages(query)` of the single-file `src/background.js` on a store whose `getAll()`
yields `all`. It destructures `text`, `color`, `startDate`, `endDate` and `limit = 50` from the
query, not `domain`; the text and date steps, the sort and the slice are the statements of
`SecureDB.searchPages` word for word, the colour step is its own. -/
def inlineSearchPages (toLowerCase : String → String) (all : List PageRecord) (query : Query) :
    List PageRecord :=
  (sortNewestFirst
    (filterEndDate query.endDate
      (filterStartDate query.startDate
        (inlineFilterColor query.color
          (filterText toLowerCase query.text all))))).take (query.limit.getD 50)

/-- Three writes: a capture with a screenshot on day 69, a capture without one on day 71, and a
clean-up on day 100 that keeps 30 days. -/
def exampleOperations : List StoreOperation :=
  [.savePage [12, 11, 10, 9, 8, 7, 6, 5, 4, 3, 2, 1] (exampleCapture 5961600000)
      (some "old shot"),
   .savePage [1, 2, 3, 4, 5, 6, 7, 8, 9, 10, 11, 12] (exampleCapture 6134400000) none,
   .cleanOldEntries 8640000000 (some 30)]

/-- What the writes keep true of the database, under the key `key`: the keys of `pages` are
pairwise distinct and below the next generated key, every blob is stored under the key of a
record of `pages`, no two blobs share a key, and every blob is an encryption under `key`. -/
structure Store.Paired {CryptoKey : Type} (P : WebPlatform CryptoKey) (key : CryptoKey)
    (db : Store) : Prop where
  ids_nodup : (db.pages.map (fun page => page.id)).Nodup
  ids_lt : ∀ page ∈ db.pages, page.id < db.nextId
  blob_live : ∀ blob ∈ db.screenshots, ∃ page ∈ db.pages, page.id = blob.pageId
  blob_nodup : (db.screenshots.map (fun blob => blob.pageId)).Nodup
  blob_encrypted : ∀ blob ∈ db.screenshots,
    ∃ random s, blob.screenshot = encrypt P key random s

/-! ## Lemmas on strings and numbers -/

theorem occursIn_iff (t s : List Char) : occursIn t s = true ↔ t <:+: s := by
  induction s with
  | nil => simp [occursIn, List.infix_nil]
  | cons c s ih =>
    simp only [occursIn, Bool.or_eq_true, ih, List.infix_cons_iff, List.isPrefixOf_iff_prefix]

theorem includes_iff (s t : String) : includes s t = true ↔ t.data <:+: s.data :=
  occursIn_iff t.data s.data

theorem log4Steps_spec : ∀ (steps n : Nat), n ≤ steps → 1 ≤ n →
    4 ^ log4Steps steps n ≤ n ∧ n < 4 ^ (log4Steps steps n + 1)
  | 0, n, h, h1 => by omega
  | steps + 1, n, h, h1 => by
    unfold log4Steps
    split
    · rename_i h4
      have ih := log4Steps_spec steps (n / 4) (by omega) (by omega)
      rw [pow_succ, pow_succ (n := log4Steps steps (n / 4) + 1)]
      omega
    · simp; omega

theorem log4_spec (n : Nat) (h : 1 ≤ n) : 4 ^ log4 n ≤ n ∧ n < 4 ^ (log4 n + 1) :=
  log4Steps_spec n n (le_refl n) h

theorem isqrtBits_spec (n : Nat) : ∀ (bits r : Nat), r * r ≤ n → n < (r + 2 ^ bits) * (r + 2 ^ bits) →
    isqrtBits n bits r * isqrtBits n bits r ≤ n ∧
      n < (isqrtBits n bits r + 1) * (isqrtBits n bits r + 1)
  | 0, r, h1, h2 => by simpa [isqrtBits] using ⟨h1, h2⟩
  | bits + 1, r, h1, h2 => by
    unfold isqrtBits
    split
    · rename_i hc
      refine isqrtBits_spec n bits _ hc ?_
      have : r + 2 ^ bits + 2 ^ bits = r + 2 ^ (bits + 1) := by rw [pow_succ]; omega
      rw [this]; exact h2
    · rename_i hc
      exact isqrtBits_spec n bits r h1 (by omega)

theorem isqrt_eq_sqrt (n : Nat) : isqrt n = Nat.sqrt n := by
  rw [Nat.eq_sqrt]
  unfold isqrt
  rcases Nat.eq_zero_or_pos n with h0 | hpos
  · subst h0
    have := isqrtBits_spec 0 (log4 0 + 1) 0 (by simp) (by positivity)
    simpa using this
  · have hl := (log4_spec n hpos).2
    refine isqrtBits_spec n (log4 n + 1) 0 (by simp) ?_
    have : (0 + 2 ^ (log4 n + 1)) * (0 + 2 ^ (log4 n + 1)) = 4 ^ (log4 n + 1) := by
      rw [Nat.zero_add, ← Nat.mul_pow]
    rw [this]; exact hl

/-- The model of `Math.sqrt` on known values: the root of 2 is the double
`6369051672525773 / 2^52 = 1.4142135623730951`, the root of 300 is `17.320508075688775`, and
roots of squares are exact. -/
theorem sqrtDouble_examples :
    sqrtDouble 2 = 6369051672525773 ∧ sqrtDouble 2500 = doubleOfNat 50 ∧
    sqrtDouble 300 = doubleOfNat 17 + 1443440050241200 ∧ sqrtDouble 0 = 0 := by
  decide

theorem sqrtDouble_lt_fifty_iff (n : Nat) : sqrtDouble n < doubleOfNat 50 ↔ n < 2500 := by
  unfold sqrtDouble doubleOfNat
  rcases Nat.eq_zero_or_pos n with h0 | hpos
  · subst h0; simp
  · have hn0 : n ≠ 0 := by omega
    simp only [hn0, if_false, isqrt_eq_sqrt]
    obtain ⟨hlo, -⟩ := log4_spec n hpos
    generalize log4 n = e at hlo
    have h4 : ∀ j : Nat, 4 ^ j = 2 ^ j * 2 ^ j := fun j => by rw [← Nat.mul_pow]
    have hm_ge : Nat.sqrt (n * 4 ^ (52 - e)) ≤
        (if n * 4 ^ (52 - e) ≤ Nat.sqrt (n * 4 ^ (52 - e)) * Nat.sqrt (n * 4 ^ (52 - e)) +
          Nat.sqrt (n * 4 ^ (52 - e)) then Nat.sqrt (n * 4 ^ (52 - e))
          else Nat.sqrt (n * 4 ^ (52 - e)) + 1) := by split <;> omega
    have hm_le : (if n * 4 ^ (52 - e) ≤ Nat.sqrt (n * 4 ^ (52 - e)) * Nat.sqrt (n * 4 ^ (52 - e)) +
          Nat.sqrt (n * 4 ^ (52 - e)) then Nat.sqrt (n * 4 ^ (52 - e))
          else Nat.sqrt (n * 4 ^ (52 - e)) + 1) ≤ Nat.sqrt (n * 4 ^ (52 - e)) + 1 := by
      split <;> omega
    generalize (if n * 4 ^ (52 - e) ≤ Nat.sqrt (n * 4 ^ (52 - e)) * Nat.sqrt (n * 4 ^ (52 - e)) +
          Nat.sqrt (n * 4 ^ (52 - e)) then Nat.sqrt (n * 4 ^ (52 - e))
          else Nat.sqrt (n * 4 ^ (52 - e)) + 1) = m at hm_ge hm_le
    constructor
    · -- a root below 50 needs an argument below 2500
      intro hlt
      by_contra hge
      have hge : 2500 ≤ n := by omega
      apply absurd hlt
      rw [Nat.not_lt]
      rcases Nat.le_total e 52 with he | he
      · obtain ⟨k, hk⟩ : ∃ k, 52 - e = k := ⟨_, rfl⟩
        rw [hk] at hm_ge
        have hke : 52 = k + e := by omega
        have hf : 50 * 2 ^ k ≤ Nat.sqrt (n * 4 ^ k) := by
          rw [Nat.le_sqrt, h4]
          nlinarith [Nat.mul_le_mul_right (2 ^ k * 2 ^ k) hge]
        calc 50 * 2 ^ 52 = 50 * 2 ^ k * 2 ^ e := by rw [hke, pow_add, Nat.mul_assoc]
          _ ≤ m * 2 ^ e := Nat.mul_le_mul_right _ (le_trans hf hm_ge)
      · have hk : 52 - e = 0 := by omega
        rw [hk, pow_zero, Nat.mul_one] at hm_ge
        have hf : 2 ^ e ≤ Nat.sqrt n := by
          rw [Nat.le_sqrt, ← h4]; exact hlo
        have h2 : 2 ^ 52 ≤ 2 ^ e := Nat.pow_le_pow_right (by norm_num) he
        calc 50 * 2 ^ 52 ≤ 2 ^ 52 * 2 ^ 52 := by norm_num
          _ ≤ 2 ^ e * 2 ^ e := Nat.mul_le_mul h2 h2
          _ ≤ m * 2 ^ e := Nat.mul_le_mul_right _ (le_trans hf hm_ge)
    · -- an argument below 2500 has a root that rounds below 50
      intro hlt
      have he : e ≤ 5 := by
        by_contra hc
        have : 4 ^ 6 ≤ 4 ^ e := Nat.pow_le_pow_right (by norm_num) (by omega)
        omega
      obtain ⟨k, hk⟩ : ∃ k, 52 - e = k := ⟨_, rfl⟩
      rw [hk] at hm_le
      have hke : 52 = k + e := by omega
      have hX : 2 ^ 47 ≤ 2 ^ k := Nat.pow_le_pow_right (by norm_num) (by omega)
      have hf : Nat.sqrt (n * 4 ^ k) < 50 * 2 ^ k - 1 := by
        rw [Nat.sqrt_lt, h4]
        obtain ⟨y, hy⟩ : ∃ y, 50 * 2 ^ k = y + 1 := ⟨50 * 2 ^ k - 1, by omega⟩
        have hy' : 50 * 2 ^ k - 1 = y := by omega
        rw [hy']
        have hn : n * (2 ^ k * 2 ^ k) ≤ 2499 * (2 ^ k * 2 ^ k) :=
          Nat.mul_le_mul_right _ (by omega)
        norm_num at hX
        nlinarith
      calc m * 2 ^ e ≤ (Nat.sqrt (n * 4 ^ k) + 1) * 2 ^ e := Nat.mul_le_mul_right _ hm_le
        _ < 50 * 2 ^ k * 2 ^ e := by
          apply Nat.mul_lt_mul_of_pos_right _ (by positivity)
          omega
        _ = 50 * 2 ^ 52 := by rw [hke, pow_add, Nat.mul_assoc]

/-! ## Lemmas on the steps of `searchPages` -/

theorem textMatches_iff (toLowerCase : String → String) (t : String) (p : PageRecord) :
    textMatches toLowerCase (toLowerCase t) p = true ↔ MatchesText toLowerCase t p := by
  unfold textMatches MatchesText
  rcases p with ⟨⟨url, title, domain, ts, col, text, hi, hv, hc⟩, id⟩
  cases title <;> cases url <;> cases text <;> simp [includes_iff, or_assoc]

theorem colorDistance_lt_fifty_iff (q : Color) (p : PageRecord) :
    colorDistance p.dominantColor (some q) < doubleOfNat 50 ↔ WithinColor q p := by
  unfold WithinColor
  cases hd : p.dominantColor with
  | none =>
    simp [colorDistance, doubleOfNat]
  | some c =>
    simp only [colorDistance, sqrtDouble_lt_fifty_iff, Option.some.injEq, exists_eq_left']
    have hnn : 0 ≤ (c.r - q.r) * (c.r - q.r) + (c.g - q.g) * (c.g - q.g) +
        (c.b - q.b) * (c.b - q.b) :=
      add_nonneg (add_nonneg (mul_self_nonneg _) (mul_self_nonneg _)) (mul_self_nonneg _)
    rw [← Int.ofNat_lt, Int.toNat_of_nonneg hnn]
    simp only [sq]
    norm_num

theorem mem_filterText (toLowerCase : String → String) (text : Option String)
    (all : List PageRecord) (p : PageRecord) :
    p ∈ filterText toLowerCase text all ↔
      p ∈ all ∧ ∀ t, text = some t → t ≠ "" → MatchesText toLowerCase t p := by
  unfold filterText
  cases text with
  | none => simp
  | some t =>
    by_cases ht : t = ""
    · simp [ht]
    · simp [ht, List.mem_filter, textMatches_iff]

theorem mem_filterColor (color : Option Color) (all : List PageRecord) (p : PageRecord) :
    p ∈ filterColor color all ↔ p ∈ all ∧ ∀ q, color = some q → WithinColor q p := by
  unfold filterColor
  cases color with
  | none => simp
  | some q => simp [List.mem_filter, colorDistance_lt_fifty_iff]

theorem mem_filterDomain (domain : Option String) (all : List PageRecord) (p : PageRecord) :
    p ∈ filterDomain domain all ↔
      p ∈ all ∧ ∀ d, domain = some d → d ≠ "" → p.domain = some d := by
  unfold filterDomain
  cases domain with
  | none => simp
  | some d =>
    by_cases hd : d = ""
    · simp [hd]
    · simp [hd, List.mem_filter]

theorem mem_filterStartDate (startDate : Option Int) (all : List PageRecord) (p : PageRecord) :
    p ∈ filterStartDate startDate all ↔
      p ∈ all ∧ ∀ s, startDate = some s → s ≠ 0 → s ≤ p.timestamp := by
  unfold filterStartDate
  cases startDate with
  | none => simp
  | some s =>
    by_cases hs : s = 0
    · simp [hs]
    · simp [hs, List.mem_filter]

theorem mem_filterEndDate (endDate : Option Int) (all : List PageRecord) (p : PageRecord) :
    p ∈ filterEndDate endDate all ↔
      p ∈ all ∧ ∀ e, endDate = some e → e ≠ 0 → p.timestamp ≤ e := by
  unfold filterEndDate
  cases endDate with
  | none => simp
  | some e =>
    by_cases he : e = 0
    · simp [he]
    · simp [he, List.mem_filter]

theorem mem_filterPages (toLowerCase : String → String) (all : List PageRecord) (query : Query)
    (p : PageRecord) :
    p ∈ filterPages toLowerCase all query ↔
      p ∈ all ∧
      (∀ t, query.text = some t → t ≠ "" → MatchesText toLowerCase t p) ∧
      (∀ q, query.color = some q → WithinColor q p) ∧
      (∀ d, query.domain = some d → d ≠ "" → p.domain = some d) ∧
      (∀ s, query.startDate = some s → s ≠ 0 → s ≤ p.timestamp) ∧
      (∀ e, query.endDate = some e → e ≠ 0 → p.timestamp ≤ e) := by
  unfold filterPages
  rw [mem_filterEndDate, mem_filterStartDate, mem_filterDomain, mem_filterColor, mem_filterText]
  tauto

theorem mem_searchPages (toLowerCase : String → String) (all : List PageRecord) (query : Query)
    (p : PageRecord) (h : p ∈ searchPages toLowerCase all query) :
    p ∈ filterPages toLowerCase all query := by
  unfold searchPages sortNewestFirst at h
  exact (List.perm_insertionSort newerFirst _).subset (List.mem_of_mem_take h)

/-! ## Lemmas on `cleanOldEntries` -/
theorem cursorLoop_eq : ∀ (visits pages : List PageRecord) (deletedIds : List Nat),
    cursorLoop visits pages deletedIds =
      (pages.filter (fun page => page.id ∉ visits.map (fun v => v.id)),
        deletedIds ++ visits.map (fun v => v.id))
  | [], pages, deletedIds => by simp [cursorLoop]
  | visited :: rest, pages, deletedIds => by
    rw [cursorLoop, cursorLoop_eq rest, List.filter_filter]
    refine Prod.ext ?_ ?_
    · apply List.filter_congr
      intro page _
      simp only [List.map_cons, List.mem_cons, not_or, Bool.decide_and, ne_eq]
      rw [Bool.and_comm]
    · simp

theorem deleteScreenshots_eq : ∀ (ids : List Nat) (screenshots : List ScreenshotBlob),
    deleteScreenshots ids screenshots = screenshots.filter (fun blob => blob.pageId ∉ ids)
  | [], screenshots => by simp [deleteScreenshots]
  | id :: rest, screenshots => by
    rw [deleteScreenshots, deleteScreenshots_eq rest, List.filter_filter]
    apply List.filter_congr
    intro blob _
    simp only [List.mem_cons, not_or, Bool.decide_and, ne_eq]
    rw [Bool.and_comm]

theorem mem_openCursor_ids (pages : List PageRecord) (cutoffDate : Int) (id : Nat) :
    id ∈ (openCursor pages cutoffDate).map (fun v => v.id) ↔
      ∃ page ∈ pages, page.timestamp ≤ cutoffDate ∧ page.id = id := by
  unfold openCursor
  simp only [List.mem_map, List.mem_insertionSort, List.mem_filter, decide_eq_true_eq]
  constructor
  · rintro ⟨page, ⟨hp, ht⟩, rfl⟩
    exact ⟨page, hp, ht, rfl⟩
  · rintro ⟨page, hp, ht, rfl⟩
    exact ⟨page, ⟨hp, ht⟩, rfl⟩

theorem cleanOldEntries_pages (now : Int) (daysToKeep : Option Int) (db : Store)
    (hkeys : (db.pages.map (fun page => page.id)).Nodup) :
    (cleanOldEntries now daysToKeep db).1.pages =
      db.pages.filter
        (fun page => now - (daysToKeep.getD 30) * 24 * 60 * 60 * 1000 < page.timestamp) := by
  simp only [cleanOldEntries, cursorLoop_eq]
  apply List.filter_congr
  intro page hpage
  rw [decide_eq_decide, mem_openCursor_ids]
  constructor
  · intro h
    by_contra hle
    exact h ⟨page, hpage, by omega, rfl⟩
  · rintro hlt ⟨other, hother, hle, hid⟩
    have := List.inj_on_of_nodup_map hkeys hother hpage hid
    subst this
    omega

theorem cleanOldEntries_deletedIds (now : Int) (daysToKeep : Option Int) (db : Store) :
    (cleanOldEntries now daysToKeep db).1.screenshots =
      db.screenshots.filter (fun blob => blob.pageId ∉
        (openCursor db.pages (now - (daysToKeep.getD 30) * 24 * 60 * 60 * 1000)).map
          (fun v => v.id)) := by
  simp [cleanOldEntries, cursorLoop_eq, deleteScreenshots_eq]

theorem cleanOldEntries_count (now : Int) (daysToKeep : Option Int) (db : Store) :
    (cleanOldEntries now daysToKeep db).2 =
      (db.pages.filter
        (fun page => page.timestamp ≤ now - (daysToKeep.getD 30) * 24 * 60 * 60 * 1000)).length := by
  simp [cleanOldEntries, cursorLoop_eq, openCursor, List.length_insertionSort]

/-! ## Lemmas on `encrypt` and `decrypt` -/
theorem toUint8Array_arrayFrom (bytes : List Byte) : toUint8Array (arrayFrom bytes) = bytes := by
  unfold toUint8Array arrayFrom
  rw [List.map_map]
  conv_rhs => rw [← List.map_id bytes]
  apply List.map_congr_left
  intro b _
  apply Fin.ext
  simp only [Function.comp_apply, id_eq]
  exact Nat.mod_eq_of_lt b.isLt

theorem xorByte_xorByte (a b : Byte) : xorByte (xorByte a b) b = a := by
  apply Fin.ext
  simp only [xorByte]
  rw [Nat.xor_assoc, Nat.xor_self, Nat.xor_zero]

theorem xorStream_xorStream (ks : Nat → Byte) : ∀ (i : Nat) (bytes : List Byte),
    xorStream ks i (xorStream ks i bytes) = bytes
  | _, [] => rfl
  | i, b :: bs => by
    simp only [xorStream, xorByte_xorByte, xorStream_xorStream ks (i + 1) bs]

theorem aesGcmDecrypt_aesGcmEncrypt {CryptoKey : Type} (P : WebPlatform CryptoKey)
    (key : CryptoKey) (iv data : List Byte) :
    aesGcmDecrypt P key iv (aesGcmEncrypt P key iv data) = .resolved data := by
  unfold aesGcmDecrypt aesGcmEncrypt
  have hlen : (xorStream (P.keystream key iv) 0 data ++
      (P.tag key iv (xorStream (P.keystream key iv) 0 data)).val).length - 16 =
      (xorStream (P.keystream key iv) 0 data).length := by
    rw [List.length_append, (P.tag key iv _).property]
    omega
  have hshort : ¬ (xorStream (P.keystream key iv) 0 data ++
      (P.tag key iv (xorStream (P.keystream key iv) 0 data)).val).length < 16 := by
    rw [List.length_append, (P.tag key iv _).property]
    omega
  rw [if_neg hshort, hlen, List.take_left, List.drop_left, if_pos rfl, xorStream_xorStream]

theorem decrypt_encrypt_of_roundtrip {CryptoKey : Type} (P : WebPlatform CryptoKey)
    (key : CryptoKey) (random : List Nat) (p : String)
    (hjson : P.jsonParse (P.jsonStringify p) = some p)
    (htext : P.textDecode (P.textEncode (P.jsonStringify p)) = P.jsonStringify p) :
    decrypt P key (encrypt P key random p) = .resolved p := by
  simp only [decrypt, encrypt, toUint8Array_arrayFrom, aesGcmDecrypt_aesGcmEncrypt, htext, hjson]

theorem decodeChars_encodeChar (c : Char) (rest : List Byte) :
    decodeChars (encodeChar c ++ rest) = c :: decodeChars rest := by
  have hlt : c.toNat < 1114112 := by
    have := c.valid
    simp only [UInt32.isValidChar, Nat.isValidChar] at this
    show c.val.toNat < 1114112
    omega
  simp only [encodeChar, toUint8Array, List.map_cons, List.map_nil, List.cons_append,
    List.nil_append, decodeChars]
  congr 1
  have : c.toNat / 65536 % 256 * 65536 + c.toNat / 256 % 256 * 256 + c.toNat % 256 = c.toNat := by
    omega
  rw [this, Char.ofNat_toNat]

theorem decodeChars_flatMap (cs : List Char) : decodeChars (cs.flatMap encodeChar) = cs := by
  induction cs with
  | nil => rfl
  | cons c cs ih => rw [List.flatMap_cons, decodeChars_encodeChar, ih]

theorem referencePlatform_serializes : referencePlatform.Serializes where
  parse_stringify := by
    intro s
    simp [referencePlatform]
  decode_encode := by
    intro s
    show (⟨decodeChars ((referencePlatform.jsonStringify s).data.flatMap encodeChar)⟩ : String) =
      referencePlatform.jsonStringify s
    rw [decodeChars_flatMap]

set_option maxRecDepth 100000 in
theorem flip_byte_cases : ∀ (x : Fin 256) (j : Fin 8),
    (x.val ^^^ 2 ^ j.val) % 256 = x.val + 2 ^ j.val ∨
      (x.val ^^^ 2 ^ j.val) % 256 + 2 ^ j.val = x.val := by
  decide

theorem flipBit_length : ∀ (l : List Nat) (i j : Nat), (flipBit l i j).length = l.length
  | [], _, _ => rfl
  | _ :: _, 0, _ => rfl
  | b :: bs, i + 1, j => by simp [flipBit, flipBit_length bs i j]

theorem flipBit_append : ∀ (a b : List Nat) (i j : Nat),
    flipBit (a ++ b) i j =
      if i < a.length then flipBit a i j ++ b else a ++ flipBit b (i - a.length) j
  | [], b, i, j => by simp [flipBit]
  | x :: a, b, 0, j => by simp [flipBit]
  | x :: a, b, i + 1, j => by
    have ih := flipBit_append a b i j
    show flipBit (x :: (a ++ b)) (i + 1) j = _
    rw [flipBit, ih]
    simp only [List.length_cons, Nat.add_lt_add_iff_right, Nat.add_sub_add_right]
    split <;> simp [flipBit]

theorem flipBit_bytes_sum : ∀ (c : List Byte) (i j : Nat), i < c.length → j < 8 →
    (arrayFrom (toUint8Array (flipBit (arrayFrom c) i j))).sum = (arrayFrom c).sum + 2 ^ j ∨
    (arrayFrom (toUint8Array (flipBit (arrayFrom c) i j))).sum + 2 ^ j = (arrayFrom c).sum
  | [], i, j, hi, _ => by simp at hi
  | x :: c, 0, j, _, hj => by
    have hx := flip_byte_cases x ⟨j, hj⟩
    have hc : (arrayFrom (toUint8Array (arrayFrom c))).sum = (arrayFrom c).sum := by
      rw [toUint8Array_arrayFrom]
    simp only [arrayFrom, toUint8Array, List.map_cons, flipBit, List.sum_cons] at hc hx ⊢
    omega
  | x :: c, i + 1, j, hi, hj => by
    have ih := flipBit_bytes_sum c i j (by simpa using hi) hj
    have hx : x.val % 256 = x.val := Nat.mod_eq_of_lt x.isLt
    simp only [arrayFrom, toUint8Array, List.map_cons, flipBit, List.sum_cons] at ih ⊢
    omega

theorem flipBit_bytes_ne (c : List Byte) (i j : Nat) (hi : i < c.length) (hj : j < 8) :
    toUint8Array (flipBit (arrayFrom c) i j) ≠ c := by
  intro h
  have hs := flipBit_bytes_sum c i j hi hj
  rw [h] at hs
  have : 0 < 2 ^ j := Nat.pow_pos (by decide)
  omega

theorem flipBit_bytes_length (c : List Byte) (i j : Nat) :
    (toUint8Array (flipBit (arrayFrom c) i j)).length = c.length := by
  simp [toUint8Array, arrayFrom, flipBit_length]

theorem aesGcmDecrypt_append {CryptoKey : Type} (P : WebPlatform CryptoKey) (key : CryptoKey)
    (iv c t : List Byte) (ht : t.length = 16) (hne : t ≠ (P.tag key iv c).val) :
    aesGcmDecrypt P key iv (c ++ t) = .rejected .decryptionError := by
  unfold aesGcmDecrypt
  have hlen : (c ++ t).length - 16 = c.length := by
    rw [List.length_append, ht]; omega
  have hshort : ¬ (c ++ t).length < 16 := by
    rw [List.length_append, ht]; omega
  rw [if_neg hshort, hlen, List.take_left, List.drop_left, if_neg hne]

theorem referencePlatform_detects (key : Nat) (iv : List Byte) :
    TagDetectsBitFlips referencePlatform key iv := by
  intro c i j hi hj h
  have hs := flipBit_bytes_sum c i j hi hj
  have hj' : 2 ^ j < 256 := by
    have : 2 ^ j < 2 ^ 8 := Nat.pow_lt_pow_right (by decide) hj
    simpa using this
  have hpos : 0 < 2 ^ j := Nat.pow_pos (by decide)
  simp only [referencePlatform, List.cons.injEq, Fin.mk.injEq] at h
  omega

theorem toUint8Array_append (a b : List Nat) :
    toUint8Array (a ++ b) = toUint8Array a ++ toUint8Array b := by
  simp [toUint8Array]

/-! ## The search filter: text, colour, date range, domain, conjunction, order -/

/-- C1: with a non-empty query text `t`, a record passes the text filter of `searchPages` exactly
when it is one of the records and the lower-cased `t` is a substring of its lower-cased title,
url or textContent; an absent field never matches. -/
theorem text_filter_matches_substring (toLowerCase : String → String) (all : List PageRecord)
    (t : String) (ht : t ≠ "") (p : PageRecord) :
    p ∈ filterText toLowerCase (some t) all ↔ p ∈ all ∧ MatchesText toLowerCase t p := by
  rw [mem_filterText]
  constructor
  · rintro ⟨hp, h⟩
    exact ⟨hp, h t rfl ht⟩
  · rintro ⟨hp, h⟩
    refine ⟨hp, fun t' ht' _ => ?_⟩
    cases ht'
    exact h

/-- C1, on the example of the specification: of the titles "Alpha Guide", "Beta Notes" and
"alphabet soup" the query text "alpha" keeps the first and the third. -/
theorem text_filter_matches_substring_witness :
    "alpha" ≠ "" ∧
    (exampleRecord 1 (some "Alpha Guide") 1000 none ∈
        filterText asciiLower (some "alpha") titledExamples ↔
      exampleRecord 1 (some "Alpha Guide") 1000 none ∈ titledExamples ∧
        MatchesText asciiLower "alpha" (exampleRecord 1 (some "Alpha Guide") 1000 none)) ∧
    searchPages asciiLower titledExamples
        { text := some "alpha", color := none, domain := none, startDate := none,
          endDate := none, limit := none } =
      [exampleRecord 3 (some "alphabet soup") 3000 none,
       exampleRecord 1 (some "Alpha Guide") 1000 none] :=
  ⟨by decide,
   text_filter_matches_substring asciiLower titledExamples "alpha" (by decide)
     (exampleRecord 1 (some "Alpha Guide") 1000 none),
   by decide⟩

/-- C2: for a query colour `q` and a record whose dominant colour is `c` (integer channels, in
particular channels in 0..255), the record passes the colour filter exactly when it is one of
the records and the squared RGB distance of `c` and `q` is below 2500, that is, the distance is
strictly below 50. -/
theorem color_filter_threshold (all : List PageRecord) (q c : Color) (p : PageRecord)
    (hc : p.dominantColor = some c) :
    p ∈ filterColor (some q) all ↔
      p ∈ all ∧ (c.r - q.r) ^ 2 + (c.g - q.g) ^ 2 + (c.b - q.b) ^ 2 < 2500 := by
  rw [mem_filterColor]
  constructor
  · rintro ⟨hp, h⟩
    obtain ⟨c', hc', hlt⟩ := h q rfl
    rw [hc] at hc'
    cases hc'
    exact ⟨hp, hlt⟩
  · rintro ⟨hp, hlt⟩
    refine ⟨hp, fun q' hq' => ?_⟩
    cases hq'
    exact ⟨c, hc, hlt⟩

/-- C2, on the example of the specification: with the query colour {0,0,0} the record coloured
{10,10,10} passes, the record coloured {100,100,100} does not, and neither does the record
coloured {30,40,0}, whose distance is exactly 50. -/
theorem color_filter_threshold_witness :
    (exampleRecord 1 none 0 (some ⟨10, 10, 10⟩)).dominantColor = some ⟨10, 10, 10⟩ ∧
    (exampleRecord 1 none 0 (some ⟨10, 10, 10⟩) ∈ filterColor (some ⟨0, 0, 0⟩) colourExamples ↔
      exampleRecord 1 none 0 (some ⟨10, 10, 10⟩) ∈ colourExamples ∧
        ((10 : Int) - 0) ^ 2 + (10 - 0) ^ 2 + (10 - 0) ^ 2 < 2500) ∧
    filterColor (some ⟨0, 0, 0⟩) colourExamples = [exampleRecord 1 none 0 (some ⟨10, 10, 10⟩)] :=
  ⟨rfl,
   color_filter_threshold colourExamples ⟨0, 0, 0⟩ ⟨10, 10, 10⟩
     (exampleRecord 1 none 0 (some ⟨10, 10, 10⟩)) rfl,
   by decide⟩

/-- C3, as stated, fails: with startDate -1 and endDate 0 a record with timestamp 5 passes both
date steps and is returned, although 5 is not at most 0. -/
theorem date_filter_counterexample :
    exampleVisit 1 "a.example" 5 ∈
        filterEndDate (some 0) (filterStartDate (some (-1)) [exampleVisit 1 "a.example" 5]) ∧
    exampleVisit 1 "a.example" 5 ∈
        searchPages asciiLower [exampleVisit 1 "a.example" 5]
          { text := none, color := none, domain := none, startDate := some (-1),
            endDate := some 0, limit := none } ∧
    ¬ ((-1 : Int) ≤ (exampleVisit 1 "a.example" 5).timestamp ∧
        (exampleVisit 1 "a.example" 5).timestamp ≤ 0) := by
  decide

/-- C3, amended: a record passes the date steps for startDate `s` and endDate `e` exactly when it
is one of the records, `s` is 0 or at most its timestamp, and `e` is 0 or at least its timestamp:
both bounds are inclusive and a bound equal to 0 is skipped like an absent one. -/
theorem date_filter_inclusive (all : List PageRecord) (s e : Int) (p : PageRecord) :
    p ∈ filterEndDate (some e) (filterStartDate (some s) all) ↔
      p ∈ all ∧ (s ≠ 0 → s ≤ p.timestamp) ∧ (e ≠ 0 → p.timestamp ≤ e) := by
  rw [mem_filterEndDate, mem_filterStartDate]
  constructor
  · rintro ⟨⟨hp, hs⟩, he⟩
    exact ⟨hp, hs s rfl, he e rfl⟩
  · rintro ⟨hp, hs, he⟩
    refine ⟨⟨hp, fun s' hs' => ?_⟩, fun e' he' => ?_⟩
    · cases hs'; exact hs
    · cases he'; exact he

/-- C4, as stated, fails: a query whose domain is the empty string returns a record of the domain
"a.example". -/
theorem domain_filter_counterexample :
    exampleVisit 1 "a.example" 5 ∈
        searchPages asciiLower [exampleVisit 1 "a.example" 5]
          { text := none, color := none, domain := some "", startDate := none,
            endDate := none, limit := none } ∧
    (exampleVisit 1 "a.example" 5).domain ≠ some "" := by
  decide

/-- C4, amended: for a query that supplies a non-empty domain `d`, every returned record has
domain exactly `d`, and no record whose domain differs from `d` is in the result. -/
theorem domain_filter_exact (toLowerCase : String → String) (all : List PageRecord)
    (query : Query) (d : String) (hq : query.domain = some d) (hd : d ≠ "") :
    (∀ p ∈ searchPages toLowerCase all query, p.domain = some d) ∧
    (∀ p ∈ all, p.domain ≠ some d → p ∉ searchPages toLowerCase all query) := by
  have key : ∀ p ∈ searchPages toLowerCase all query, p.domain = some d := by
    intro p hp
    have h := (mem_filterPages toLowerCase all query p).1 (mem_searchPages _ _ _ _ hp)
    exact h.2.2.2.1 d hq hd
  exact ⟨key, fun p _ hne hp => hne (key p hp)⟩

/-- C4 amended, on an example: the query domain "a.example" keeps the visit of "a.example" and
drops the visits of "b.example" and of "A.example". -/
theorem domain_filter_exact_witness :
    ("a.example" ≠ "") ∧
    ((∀ p ∈ searchPages asciiLower domainExamples
          { text := none, color := none, domain := some "a.example", startDate := none,
            endDate := none, limit := none }, p.domain = some "a.example") ∧
      (∀ p ∈ domainExamples, p.domain ≠ some "a.example" →
        p ∉ searchPages asciiLower domainExamples
          { text := none, color := none, domain := some "a.example", startDate := none,
            endDate := none, limit := none })) ∧
    searchPages asciiLower domainExamples
        { text := none, color := none, domain := some "a.example", startDate := none,
          endDate := none, limit := none } = [exampleVisit 1 "a.example" 10] :=
  ⟨by decide,
   domain_filter_exact asciiLower domainExamples
     { text := none, color := none, domain := some "a.example", startDate := none,
       endDate := none, limit := none } "a.example" rfl (by decide),
   by decide⟩

/-- C5, as stated, fails: a query whose endDate is 0 returns a record with timestamp 5. -/
theorem conjunctive_filter_counterexample :
    exampleVisit 1 "a.example" 5 ∈
        searchPages asciiLower [exampleVisit 1 "a.example" 5]
          { text := none, color := none, domain := none, startDate := none,
            endDate := some 0, limit := none } ∧
    0 < (exampleVisit 1 "a.example" 5).timestamp := by
  decide

/-- C5, amended: a record is among the matches of `searchPages` (before sorting and truncation)
exactly when it is one of the records and satisfies the predicate of every field the query
supplies with a truthy value; a field that is absent, an empty text or domain and a startDate or
endDate equal to 0 impose no constraint. The query `{}` matches every record. -/
theorem conjunctive_filter (toLowerCase : String → String) (all : List PageRecord)
    (query : Query) :
    (∀ p, p ∈ filterPages toLowerCase all query ↔
      p ∈ all ∧
      (∀ t, query.text = some t → t ≠ "" → MatchesText toLowerCase t p) ∧
      (∀ q, query.color = some q → WithinColor q p) ∧
      (∀ d, query.domain = some d → d ≠ "" → p.domain = some d) ∧
      (∀ s, query.startDate = some s → s ≠ 0 → s ≤ p.timestamp) ∧
      (∀ e, query.endDate = some e → e ≠ 0 → p.timestamp ≤ e)) ∧
    filterPages toLowerCase all Query.empty = all :=
  ⟨fun p => mem_filterPages toLowerCase all query p, rfl⟩

/-- C6: with `L` the limit of the query (50 when it gives none) and `m` the number of matching
records, the result of `searchPages` is the first `min L m` elements of an arrangement of the
matching records in non-increasing timestamp order; it has `min L m` elements, so at most `L`,
consecutive results have non-increasing timestamps, and no omitted matching record has a
timestamp above the one of a returned record. -/
theorem search_sorted_truncated (toLowerCase : String → String) (all : List PageRecord)
    (query : Query) :
    ∃ sorted : List PageRecord,
      sorted.Perm (filterPages toLowerCase all query) ∧
      sorted.Sorted newerFirst ∧
      searchPages toLowerCase all query =
        sorted.take (min (query.limit.getD 50) (filterPages toLowerCase all query).length) ∧
      (searchPages toLowerCase all query).length =
        min (query.limit.getD 50) (filterPages toLowerCase all query).length ∧
      (searchPages toLowerCase all query).length ≤ query.limit.getD 50 ∧
      (searchPages toLowerCase all query).Chain' (fun a b => b.timestamp ≤ a.timestamp) ∧
      (∀ r ∈ searchPages toLowerCase all query,
        ∀ o ∈ sorted.drop (min (query.limit.getD 50) (filterPages toLowerCase all query).length),
          o.timestamp ≤ r.timestamp) := by
  have hperm : (sortNewestFirst (filterPages toLowerCase all query)).Perm
      (filterPages toLowerCase all query) := List.perm_insertionSort newerFirst _
  have hsorted : (sortNewestFirst (filterPages toLowerCase all query)).Sorted newerFirst :=
    List.sorted_insertionSort newerFirst _
  have hlen : (sortNewestFirst (filterPages toLowerCase all query)).length =
      (filterPages toLowerCase all query).length := hperm.length_eq
  have htake : searchPages toLowerCase all query =
      (sortNewestFirst (filterPages toLowerCase all query)).take
        (min (query.limit.getD 50) (filterPages toLowerCase all query).length) := by
    unfold searchPages
    rw [← hlen, List.take_eq_take]
    simp
  refine ⟨sortNewestFirst (filterPages toLowerCase all query), hperm, hsorted, htake, ?_, ?_,
    ?_, ?_⟩
  · rw [htake, List.length_take, hlen]
    omega
  · unfold searchPages
    rw [List.length_take]
    omega
  · unfold searchPages
    exact (hsorted.sublist (List.take_sublist _ _)).chain'
  · intro r hr o ho
    rw [htake] at hr
    exact hsorted.rel_of_mem_take_of_mem_drop hr ho

/-! ## Retention -/

/-- C7: with `cutoff = now - daysToKeep * 86,400,000` (30 days when no argument is given),
`cleanOldEntries` leaves in `pages` exactly the records with timestamp above the cutoff,
unchanged and in their order, so it deletes exactly the records with timestamp at most the
cutoff; the number it returns is the number of those records, which is the number of records
that left the store. -/
theorem cleanOldEntries_retention (now : Int) (daysToKeep : Option Int) (db : Store)
    (hkeys : (db.pages.map (fun page => page.id)).Nodup) :
    (cleanOldEntries now daysToKeep db).1.pages =
      db.pages.filter (fun page => now - (daysToKeep.getD 30) * 86400000 < page.timestamp) ∧
    (cleanOldEntries now daysToKeep db).2 =
      (db.pages.filter
        (fun page => page.timestamp ≤ now - (daysToKeep.getD 30) * 86400000)).length ∧
    (cleanOldEntries now daysToKeep db).2 + (cleanOldEntries now daysToKeep db).1.pages.length =
      db.pages.length := by
  have hcut : (daysToKeep.getD 30) * 24 * 60 * 60 * 1000 = (daysToKeep.getD 30) * 86400000 := by
    ring
  have hpages := cleanOldEntries_pages now daysToKeep db hkeys
  have hcount := cleanOldEntries_count now daysToKeep db
  rw [hcut] at hpages hcount
  refine ⟨hpages, hcount, ?_⟩
  rw [hpages, hcount, ← List.countP_eq_length_filter, ← List.countP_eq_length_filter,
    List.length_eq_countP_add_countP
      (fun page => decide (page.timestamp ≤ now - (daysToKeep.getD 30) * 86400000)) db.pages]
  congr 1
  apply List.countP_congr
  intro page _
  simp

/-- C7, on the example of the specification: with `now = T` (day 100) and `daysToKeep = 30`, the
record captured at `T - 31 days` is deleted, the record captured at `T - 29 days` stays, and the
returned count is 1. -/
theorem cleanOldEntries_retention_witness :
    (retentionExample.pages.map (fun page => page.id)).Nodup ∧
    ((cleanOldEntries 8640000000 (some 30) retentionExample).1.pages =
        retentionExample.pages.filter
          (fun page => 8640000000 - ((some 30 : Option Int).getD 30) * 86400000 <
            page.timestamp) ∧
      (cleanOldEntries 8640000000 (some 30) retentionExample).2 =
        (retentionExample.pages.filter
          (fun page => page.timestamp ≤
            8640000000 - ((some 30 : Option Int).getD 30) * 86400000)).length ∧
      (cleanOldEntries 8640000000 (some 30) retentionExample).2 +
          (cleanOldEntries 8640000000 (some 30) retentionExample).1.pages.length =
        retentionExample.pages.length) ∧
    (cleanOldEntries 8640000000 (some 30) retentionExample).1.pages.map (fun page => page.id) =
      [2] ∧
    (cleanOldEntries 8640000000 (some 30) retentionExample).2 = 1 :=
  ⟨by decide,
   cleanOldEntries_retention 8640000000 (some 30) retentionExample (by decide),
   by decide, by decide⟩

/-- C8: after `cleanOldEntries`, for every record it deleted (timestamp at most the cutoff) the
`screenshots` store holds no blob with that `pageId` and `getScreenshot` of its id resolves with
`null`; the blob of every retained record is still there, and what is left of `screenshots` is
the old content with blobs removed, none added or changed. -/
theorem cleanOldEntries_removes_blobs {CryptoKey : Type} (P : WebPlatform CryptoKey)
    (key : CryptoKey) (now : Int) (daysToKeep : Option Int) (db : Store)
    (hkeys : (db.pages.map (fun page => page.id)).Nodup) :
    (∀ page ∈ db.pages, page.timestamp ≤ now - (daysToKeep.getD 30) * 86400000 →
      (∀ blob ∈ (cleanOldEntries now daysToKeep db).1.screenshots, blob.pageId ≠ page.id) ∧
      getScreenshot P key (cleanOldEntries now daysToKeep db).1 page.id = .resolved none) ∧
    (∀ blob ∈ db.screenshots, ∀ page ∈ (cleanOldEntries now daysToKeep db).1.pages,
      blob.pageId = page.id → blob ∈ (cleanOldEntries now daysToKeep db).1.screenshots) ∧
    ((cleanOldEntries now daysToKeep db).1.screenshots).Sublist db.screenshots := by
  have hcut : (daysToKeep.getD 30) * 24 * 60 * 60 * 1000 = (daysToKeep.getD 30) * 86400000 := by
    ring
  have hpages := cleanOldEntries_pages now daysToKeep db hkeys
  have hblobs := cleanOldEntries_deletedIds now daysToKeep db
  rw [hcut] at hpages hblobs
  have hgone : ∀ page ∈ db.pages, page.timestamp ≤ now - (daysToKeep.getD 30) * 86400000 →
      ∀ blob ∈ (cleanOldEntries now daysToKeep db).1.screenshots, blob.pageId ≠ page.id := by
    intro page hpage hold blob hblob heq
    rw [hblobs, List.mem_filter, decide_eq_true_eq, mem_openCursor_ids] at hblob
    exact hblob.2 ⟨page, hpage, hold, heq.symm⟩
  refine ⟨fun page hpage hold => ⟨hgone page hpage hold, ?_⟩, ?_, ?_⟩
  · have hnone : (cleanOldEntries now daysToKeep db).1.screenshots.find?
        (fun blob => blob.pageId = page.id) = none := by
      rw [List.find?_eq_none]
      intro blob hblob
      simpa using hgone page hpage hold blob hblob
    simp only [getScreenshot, hnone]
  · intro blob hblob page hpage heq
    rw [hpages, List.mem_filter, decide_eq_true_eq] at hpage
    rw [hblobs, List.mem_filter, decide_eq_true_eq, mem_openCursor_ids]
    refine ⟨hblob, ?_⟩
    rintro ⟨other, hother, hold, hid⟩
    have := List.inj_on_of_nodup_map hkeys hother hpage.1 (hid.trans heq)
    subst this
    omega
  · rw [hblobs]
    exact List.filter_sublist _

/-- C8, on an example: after the cleanup of the retention example the blob of the deleted record
1 is gone, `getScreenshot(1)` resolves with `null`, and the blob of the retained record 2 still
decrypts to its screenshot. -/
theorem cleanOldEntries_removes_blobs_witness :
    (retentionExample.pages.map (fun page => page.id)).Nodup ∧
    ((∀ page ∈ retentionExample.pages,
        page.timestamp ≤ 8640000000 - ((some 30 : Option Int).getD 30) * 86400000 →
        (∀ blob ∈ (cleanOldEntries 8640000000 (some 30) retentionExample).1.screenshots,
          blob.pageId ≠ page.id) ∧
        getScreenshot referencePlatform 5
          (cleanOldEntries 8640000000 (some 30) retentionExample).1 page.id = .resolved none) ∧
      (∀ blob ∈ retentionExample.screenshots,
        ∀ page ∈ (cleanOldEntries 8640000000 (some 30) retentionExample).1.pages,
        blob.pageId = page.id →
          blob ∈ (cleanOldEntries 8640000000 (some 30) retentionExample).1.screenshots) ∧
      ((cleanOldEntries 8640000000 (some 30) retentionExample).1.screenshots).Sublist
        retentionExample.screenshots) ∧
    getScreenshot referencePlatform 5 retentionExample 1 = .resolved (some "old shot") ∧
    getScreenshot referencePlatform 5
      (cleanOldEntries 8640000000 (some 30) retentionExample).1 1 = .resolved none ∧
    getScreenshot referencePlatform 5
      (cleanOldEntries 8640000000 (some 30) retentionExample).1 2 =
        .resolved (some "new shot") :=
  ⟨by decide,
   cleanOldEntries_removes_blobs referencePlatform 5 8640000000 (some 30) retentionExample
     (by decide),
   by decide, by decide, by decide⟩

/-! ## Encryption round trip and tamper detection -/
/-- C9 (counterexample): for the empty payload `savePage(record, "")` returns the id 1 and stores
no blob, so `getScreenshot(1)` resolves with `null`, not with the payload. -/
theorem screenshot_roundtrip_counterexample :
    (savePage referencePlatform 5 [1, 2, 3, 4, 5, 6, 7, 8, 9, 10, 11, 12] Store.empty
        (exampleCapture 1000) (some "")).2 = .resolved 1 ∧
      getScreenshot referencePlatform 5
        (savePage referencePlatform 5 [1, 2, 3, 4, 5, 6, 7, 8, 9, 10, 11, 12] Store.empty
          (exampleCapture 1000) (some "")).1 1 = .resolved none ∧
      getScreenshot referencePlatform 5
        (savePage referencePlatform 5 [1, 2, 3, 4, 5, 6, 7, 8, 9, 10, 11, 12] Store.empty
          (exampleCapture 1000) (some "")).1 1 ≠ .resolved (some "") := by
  decide

/-- C9 (amended): on a platform whose JSON and text codecs round-trip the payload, for every
key, every nonce and every payload `p`, `decrypt(encrypt(p))` resolves with `p`. For the empty
payload `savePage(record, "")` resolves with the new id and stores no blob, so on a database
with no blob under that id `getScreenshot` of it resolves with `null`. -/
theorem encrypt_decrypt_roundtrip {CryptoKey : Type} (P : WebPlatform CryptoKey)
    (hP : P.Serializes) (key : CryptoKey) (random : List Nat) (p : String) (db : Store)
    (pageData : PageData) :
    decrypt P key (encrypt P key random p) = .resolved p ∧
      (savePage P key random db pageData (some "")).2 = .resolved db.nextId ∧
      (savePage P key random db pageData (some "")).1.screenshots = db.screenshots ∧
      ((∀ blob ∈ db.screenshots, blob.pageId ≠ db.nextId) →
        getScreenshot P key (savePage P key random db pageData (some "")).1 db.nextId =
          .resolved none) := by
  have hround : decrypt P key (encrypt P key random p) = .resolved p :=
    decrypt_encrypt_of_roundtrip P key random p (hP.parse_stringify p) (hP.decode_encode p)
  refine ⟨hround, by simp [savePage], by simp [savePage], fun hfresh => ?_⟩
  have hold : db.screenshots.find? (fun blob => blob.pageId = db.nextId) = none := by
    rw [List.find?_eq_none]
    intro blob hblob
    simpa using hfresh blob hblob
  simp [savePage, getScreenshot, hold]

/-- C9 (amended), on an example: the data URL of a screenshot encrypted under the key 5 decrypts
to itself, and saving the empty payload into the retention example returns the id 3, under
which `getScreenshot` finds nothing. -/
theorem encrypt_decrypt_roundtrip_witness :
    referencePlatform.Serializes ∧
      (decrypt referencePlatform 5
          (encrypt referencePlatform 5 [9, 8, 7, 6, 5, 4, 3, 2, 1, 0, 1, 2]
            "data:image/jpeg;base64,/9j/4AAQ") = .resolved "data:image/jpeg;base64,/9j/4AAQ" ∧
        (savePage referencePlatform 5 [9, 8, 7, 6, 5, 4, 3, 2, 1, 0, 1, 2] retentionExample
          (exampleCapture 7000000000) (some "")).2 = .resolved retentionExample.nextId ∧
        (savePage referencePlatform 5 [9, 8, 7, 6, 5, 4, 3, 2, 1, 0, 1, 2] retentionExample
          (exampleCapture 7000000000) (some "")).1.screenshots = retentionExample.screenshots ∧
        ((∀ blob ∈ retentionExample.screenshots, blob.pageId ≠ retentionExample.nextId) →
          getScreenshot referencePlatform 5
            (savePage referencePlatform 5 [9, 8, 7, 6, 5, 4, 3, 2, 1, 0, 1, 2] retentionExample
              (exampleCapture 7000000000) (some "")).1 retentionExample.nextId =
            .resolved none)) ∧
      (∀ blob ∈ retentionExample.screenshots, blob.pageId ≠ retentionExample.nextId) ∧
      retentionExample.nextId = 3 :=
  ⟨referencePlatform_serializes,
   encrypt_decrypt_roundtrip referencePlatform referencePlatform_serializes 5
     [9, 8, 7, 6, 5, 4, 3, 2, 1, 0, 1, 2] "data:image/jpeg;base64,/9j/4AAQ" retentionExample
     (exampleCapture 7000000000),
   by decide, by decide⟩

/-- C10: for every payload `p`, flipping any single bit of the `data` array of `encrypt(p)`, which
is the ciphertext followed by the 16-byte tag, makes `decrypt` reject with the decryption error
of the primitive, and it resolves with no value. A flipped bit of the tag needs nothing of the
platform; for a flipped bit of the ciphertext the platform's tag has to detect flipped
ciphertext bits under the key and the nonce. -/
theorem decrypt_rejects_bit_flip {CryptoKey : Type} (P : WebPlatform CryptoKey)
    (key : CryptoKey) (random : List Nat) (p : String)
    (i j : Nat) (hi : i < (encrypt P key random p).data.length) (hj : j < 8)
    (hauth : i < (encrypt P key random p).data.length - 16 →
      TagDetectsBitFlips P key (toUint8Array random)) :
    decrypt P key
        { iv := (encrypt P key random p).iv,
          data := flipBit (encrypt P key random p).data i j } =
      .rejected .decryptionError ∧
    ∀ value, decrypt P key
        { iv := (encrypt P key random p).iv,
          data := flipBit (encrypt P key random p).data i j } ≠ .resolved value := by
  have key_fact : decrypt P key
      { iv := (encrypt P key random p).iv,
        data := flipBit (encrypt P key random p).data i j } = .rejected .decryptionError := by
    simp only [encrypt, arrayFrom, List.length_map] at hi hauth
    simp only [decrypt, encrypt, toUint8Array_arrayFrom, aesGcmEncrypt]
    simp only [aesGcmEncrypt, List.length_append, (P.tag key _ _).property,
      Nat.add_sub_cancel] at hi hauth
    have happ : arrayFrom (xorStream (P.keystream key (toUint8Array random)) 0
          (P.textEncode (P.jsonStringify p)) ++
        (P.tag key (toUint8Array random) (xorStream (P.keystream key (toUint8Array random)) 0
          (P.textEncode (P.jsonStringify p)))).val) =
        arrayFrom (xorStream (P.keystream key (toUint8Array random)) 0
          (P.textEncode (P.jsonStringify p))) ++
        arrayFrom (P.tag key (toUint8Array random)
          (xorStream (P.keystream key (toUint8Array random)) 0
            (P.textEncode (P.jsonStringify p)))).val := by
      simp [arrayFrom]
    generalize xorStream (P.keystream key (toUint8Array random)) 0
      (P.textEncode (P.jsonStringify p)) = c at hi hauth happ ⊢
    rw [happ, flipBit_append]
    have hclen : (arrayFrom c).length = c.length := by simp [arrayFrom]
    have htlen : (P.tag key (toUint8Array random) c).val.length = 16 :=
      (P.tag key (toUint8Array random) c).property
    rw [hclen]
    by_cases hic : i < c.length
    · -- the flipped bit is in the ciphertext
      rw [if_pos hic]
      have hsplit : toUint8Array (flipBit (arrayFrom c) i j ++
          arrayFrom (P.tag key (toUint8Array random) c).val) =
          toUint8Array (flipBit (arrayFrom c) i j) ++ (P.tag key (toUint8Array random) c).val := by
        rw [toUint8Array_append, toUint8Array_arrayFrom]
      rw [hsplit, aesGcmDecrypt_append P key _ _ _ htlen (Ne.symm (hauth hic c i j hic hj))]
    · -- the flipped bit is in the tag
      rw [if_neg hic]
      have hsplit : toUint8Array (arrayFrom c ++
          flipBit (arrayFrom (P.tag key (toUint8Array random) c).val) (i - c.length) j) =
          c ++ toUint8Array
            (flipBit (arrayFrom (P.tag key (toUint8Array random) c).val) (i - c.length) j) := by
        rw [toUint8Array_append, toUint8Array_arrayFrom]
      rw [hsplit, aesGcmDecrypt_append P key _ _ _
        (by rw [flipBit_bytes_length]; exact htlen)
        (flipBit_bytes_ne _ _ _ (by rw [htlen]; omega) hj)]
  refine ⟨key_fact, fun value h => ?_⟩
  rw [key_fact] at h
  cases h

/-- C10, on an example: with the reference platform, flipping bit 3 of the second ciphertext
byte, or bit 0 of the last tag byte, of an encrypted payload makes `decrypt` reject. -/
theorem decrypt_rejects_bit_flip_witness :
    1 < (encrypt referencePlatform 5 [1, 2, 3, 4, 5, 6, 7, 8, 9, 10, 11, 12] "shot").data.length ∧
    3 < 8 ∧
    (1 < (encrypt referencePlatform 5 [1, 2, 3, 4, 5, 6, 7, 8, 9, 10, 11, 12]
        "shot").data.length - 16 →
      TagDetectsBitFlips referencePlatform 5
        (toUint8Array [1, 2, 3, 4, 5, 6, 7, 8, 9, 10, 11, 12])) ∧
    (decrypt referencePlatform 5
        { iv := (encrypt referencePlatform 5 [1, 2, 3, 4, 5, 6, 7, 8, 9, 10, 11, 12] "shot").iv,
          data := flipBit
            (encrypt referencePlatform 5 [1, 2, 3, 4, 5, 6, 7, 8, 9, 10, 11, 12] "shot").data
            1 3 } = .rejected .decryptionError ∧
      ∀ value, decrypt referencePlatform 5
        { iv := (encrypt referencePlatform 5 [1, 2, 3, 4, 5, 6, 7, 8, 9, 10, 11, 12] "shot").iv,
          data := flipBit
            (encrypt referencePlatform 5 [1, 2, 3, 4, 5, 6, 7, 8, 9, 10, 11, 12] "shot").data
            1 3 } ≠ .resolved value) ∧
    decrypt referencePlatform 5
      (encrypt referencePlatform 5 [1, 2, 3, 4, 5, 6, 7, 8, 9, 10, 11, 12] "shot") =
        .resolved "shot" ∧
    (encrypt referencePlatform 5 [1, 2, 3, 4, 5, 6, 7, 8, 9, 10, 11, 12] "shot").data.length =
      34 ∧
    decrypt referencePlatform 5
      { iv := (encrypt referencePlatform 5 [1, 2, 3, 4, 5, 6, 7, 8, 9, 10, 11, 12] "shot").iv,
        data := flipBit
          (encrypt referencePlatform 5 [1, 2, 3, 4, 5, 6, 7, 8, 9, 10, 11, 12] "shot").data
          33 0 } = .rejected .decryptionError :=
  ⟨by decide, by decide, fun _ => referencePlatform_detects 5 _,
   decrypt_rejects_bit_flip referencePlatform 5 [1, 2, 3, 4, 5, 6, 7, 8, 9, 10, 11, 12] "shot"
     1 3 (by decide) (by decide) (fun _ => referencePlatform_detects 5 _),
   by decide, by decide, by decide⟩

/-! ## Lemmas on `getDominantColor` -/

theorem normalizeShift_spec : ∀ (steps r n : Nat), n * 2 ^ 52 ≤ r * 2 ^ steps →
    n * 2 ^ 52 ≤ r * 2 ^ normalizeShift steps r n
  | 0, r, n, h => by simpa [normalizeShift] using h
  | steps + 1, r, n, h => by
    unfold normalizeShift
    split
    · simpa using ‹n * 2 ^ 52 ≤ r›
    · have hstep : ∀ j : Nat, r * 2 ^ (j + 1) = 2 * r * 2 ^ j := fun j => by
        rw [pow_succ]; ring
      rw [hstep] at h
      rw [hstep]
      exact normalizeShift_spec steps (2 * r) n h

theorem mathRoundDiv_eq (r n : Nat) (hn : 1 ≤ n) (hsmall : n < 2 ^ 45) (hr : r ≤ 255 * n) :
    mathRoundDiv r n = (2 * r + n) / (2 * n) := by
  unfold mathRoundDiv
  rcases Nat.eq_zero_or_pos r with h0 | hpos
  · subst h0
    simp only [if_true, Nat.mul_zero, Nat.zero_add]
    exact (Nat.div_eq_of_lt (by omega)).symm
  · have hr0 : r ≠ 0 := by omega
    simp only [hr0, if_false]
    have hfuel : n * 2 ^ 52 ≤ r * 2 ^ (52 + n) := by
      have h1 : n ≤ 2 ^ n := Nat.le_of_lt (Nat.lt_two_pow n)
      calc n * 2 ^ 52 ≤ 2 ^ n * 2 ^ 52 := Nat.mul_le_mul_right _ h1
        _ = 1 * 2 ^ (52 + n) := by rw [Nat.one_mul, Nat.add_comm, pow_add]
        _ ≤ r * 2 ^ (52 + n) := Nat.mul_le_mul_right _ hpos
    have hs := normalizeShift_spec (52 + n) r n hfuel
    generalize normalizeShift (52 + n) r n = s at hs
    -- the shift is at least 45, so the scale is even and above `n`
    have hs45 : 45 ≤ s := by
      by_contra hlt
      have h2 : 2 ^ s ≤ 2 ^ 44 := Nat.pow_le_pow_right (by norm_num) (by omega)
      have h3 : r * 2 ^ s ≤ 255 * n * 2 ^ 44 := Nat.mul_le_mul hr h2
      have h4 : 255 * n * 2 ^ 44 < n * 2 ^ 52 := by
        have : (255 : Nat) * 2 ^ 44 < 2 ^ 52 := by norm_num
        nlinarith
      omega
    obtain ⟨t, ht⟩ : ∃ t, 2 ^ s = 2 * t := ⟨2 ^ (s - 1), by
      rw [← pow_succ']; congr 1; omega⟩
    have htn : n < 2 * t := by
      have : 2 ^ 45 ≤ 2 ^ s := Nat.pow_le_pow_right (by norm_num) hs45
      omega
    have hpow : 2 ^ (s + 1) = 2 * (2 * t) := by rw [pow_succ, ht]; ring
    rw [hpow, ht]
    -- quotient and remainder of the scaled numerator
    have hdiv := Nat.div_add_mod (r * (2 * t)) n
    have hmod : r * (2 * t) % n < n := Nat.mod_lt _ (by omega)
    generalize r * (2 * t) / n = f at hdiv
    generalize r * (2 * t) % n = rest at hdiv hmod
    -- the exact quotient rounded half up
    have hk := Nat.div_add_mod (2 * r + n) (2 * n)
    have hkmod : (2 * r + n) % (2 * n) < 2 * n := Nat.mod_lt _ (by omega)
    generalize (2 * r + n) / (2 * n) = k at hk
    generalize (2 * r + n) % (2 * n) = rem at hk hkmod
    -- the significand is the scaled quotient rounded to nearest
    have hm : ∀ m : Nat, f ≤ m → 2 * (m * n) ≤ 2 * (n * f + rest) + n →
        (2 * m + 2 * t) / (2 * (2 * t)) = k := by
      intro m hfm hmn
      apply Nat.div_eq_of_lt_le
      · by_contra hlt
        have h1 : m + t + 1 ≤ 2 * (k * t) := by
          have : 2 * m + 2 * t < k * (2 * (2 * t)) := Nat.lt_of_not_le hlt
          have e : k * (2 * (2 * t)) = 4 * (k * t) := by ring
          omega
        have h2 : n * (m + t + 1) ≤ n * (2 * (k * t)) := Nat.mul_le_mul_left n h1
        have h3 : n * f ≤ n * m := Nat.mul_le_mul_left n hfm
        have h4 : t * (2 * n * k + rem) = t * (2 * r + n) := by rw [hk]
        nlinarith
      · by_contra hge
        have h1 : (2 * k + 1) * t ≤ m := by
          have : (k + 1) * (2 * (2 * t)) ≤ 2 * m + 2 * t := Nat.le_of_not_lt hge
          have e : (k + 1) * (2 * (2 * t)) = 4 * (k * t) + 4 * t := by ring
          have e' : (2 * k + 1) * t = 2 * (k * t) + t := by ring
          omega
        have h2 : (2 * k + 1) * t * n ≤ m * n := Nat.mul_le_mul_right n h1
        have h3 : 2 * r + 1 ≤ 2 * n * k + n := by omega
        have h4 : t * (2 * r + 1) ≤ t * (2 * n * k + n) := Nat.mul_le_mul_left t h3
        nlinarith
    have hcomm : f * n = n * f := Nat.mul_comm f n
    split
    · exact hm f (le_refl f) (by omega)
    · split
      · have e : (f + 1) * n = n * f + n := by rw [Nat.add_mul, hcomm, Nat.one_mul]
        exact hm (f + 1) (by omega) (by omega)
      · have hf : f % 2 * n ≤ 1 * n := Nat.mul_le_mul_right n (by omega)
        have e : (f + f % 2) * n = n * f + f % 2 * n := by rw [Nat.add_mul, hcomm]
        exact hm (f + f % 2) (by omega) (by omega)

theorem mem_rectangle (sx sy sw sh x y : Nat) :
    (x, y) ∈ rectangle sx sy sw sh ↔ sx ≤ x ∧ x < sx + sw ∧ sy ≤ y ∧ y < sy + sh := by
  simp only [rectangle, List.mem_flatMap, List.mem_map, List.mem_range, Prod.mk.injEq]
  constructor
  · rintro ⟨dy, hdy, dx, hdx, rfl, rfl⟩
    omega
  · intro h
    exact ⟨y - sy, by omega, x - sx, by omega, by omega, by omega⟩

theorem nodup_rectangle (sx sy sw sh : Nat) : (rectangle sx sy sw sh).Nodup := by
  unfold rectangle
  rw [List.nodup_flatMap]
  constructor
  · intro dy _
    refine (List.nodup_range sw).map ?_
    intro a b hab
    simp only [Prod.mk.injEq] at hab
    omega
  · refine (List.pairwise_lt_range sh).imp ?_
    intro a b hab c hca hcb
    simp only [List.mem_map, List.mem_range] at hca hcb
    obtain ⟨_, _, rfl⟩ := hca
    obtain ⟨_, _, hc⟩ := hcb
    simp only [Prod.mk.injEq] at hc
    omega

theorem length_rectangle (sx sy sw sh : Nat) : (rectangle sx sy sw sh).length = sh * sw := by
  simp [rectangle, List.length_flatMap, Function.comp_def]

theorem sumChannels_flatMap (px : Nat × Nat → Pixel) : ∀ (coords : List (Nat × Nat))
    (sums : Nat × Nat × Nat),
    sumChannels (coords.flatMap (fun c => [(px c).r.val, (px c).g.val, (px c).b.val,
      (px c).a.val])) sums =
      (sums.1 + (coords.map (fun c => (px c).r.val)).sum,
       sums.2.1 + (coords.map (fun c => (px c).g.val)).sum,
       sums.2.2 + (coords.map (fun c => (px c).b.val)).sum)
  | [], sums => by simp [sumChannels]
  | c :: coords, (sumR, sumG, sumB) => by
    have ih := sumChannels_flatMap px coords
      (sumR + (px c).r.val, sumG + (px c).g.val, sumB + (px c).b.val)
    show sumChannels ((px c).r.val :: (px c).g.val :: (px c).b.val :: (px c).a.val ::
      coords.flatMap (fun c => [(px c).r.val, (px c).g.val, (px c).b.val, (px c).a.val]))
      (sumR, sumG, sumB) = _
    rw [sumChannels, ih]
    simp only [List.map_cons, List.sum_cons, Nat.add_assoc]

theorem length_flatMap_quad (px : Nat × Nat → Pixel) (coords : List (Nat × Nat)) :
    (coords.flatMap (fun c => [(px c).r.val, (px c).g.val, (px c).b.val,
      (px c).a.val])).length = 4 * coords.length := by
  induction coords with
  | nil => rfl
  | cons c coords ih =>
    simp only [List.flatMap_cons, List.length_append, ih, List.length_cons, List.length_nil]
    omega

theorem sum_bytes_le (channel : Nat × Nat → Byte) (coords : List (Nat × Nat)) :
    (coords.map (fun c => (channel c).val)).sum ≤ 255 * coords.length := by
  induction coords with
  | nil => simp
  | cons c coords ih =>
    have := (channel c).isLt
    simp only [List.map_cons, List.sum_cons, List.length_cons]
    omega

theorem getImageData_inside (img : DecodedImage) (sx sy sw sh : Nat)
    (hx : sx + sw ≤ img.width) (hy : sy + sh ≤ img.height) :
    getImageData img sx sy sw sh =
      (rectangle sx sy sw sh).flatMap (fun c =>
        [(img.pixel c.1 c.2).r.val, (img.pixel c.1 c.2).g.val, (img.pixel c.1 c.2).b.val,
         (img.pixel c.1 c.2).a.val]) := by
  unfold getImageData
  apply List.flatMap_congr
  intro c hc
  obtain ⟨x, y⟩ := c
  rw [mem_rectangle] at hc
  have hin : x < img.width ∧ y < img.height := by omega
  simp only [canvasPixel, hin, and_self, if_true]

theorem sampleStart_eq (center sampleSize : Nat) :
    sampleStart center sampleSize = center - sampleSize := by
  unfold sampleStart
  omega

theorem getDominantColor_eq (img : DecodedImage) (hw : 1 ≤ img.width) (hh : 1 ≤ img.height) :
    getDominantColor (some img) = some
      ⟨((2 * ((sampledPixels img).map (fun c => (img.pixel c.1 c.2).r.val)).sum +
          (sampledPixels img).length) / (2 * (sampledPixels img).length) : Nat),
       ((2 * ((sampledPixels img).map (fun c => (img.pixel c.1 c.2).g.val)).sum +
          (sampledPixels img).length) / (2 * (sampledPixels img).length) : Nat),
       ((2 * ((sampledPixels img).map (fun c => (img.pixel c.1 c.2).b.val)).sum +
          (sampledPixels img).length) / (2 * (sampledPixels img).length) : Nat)⟩ := by
  have hzero : ¬ (min (50 * 2) img.width = 0 ∨ min (50 * 2) img.height = 0) := by omega
  have hdata : getImageData img (sampleStart (img.width / 2) 50)
      (sampleStart (img.height / 2) 50) (min (50 * 2) img.width) (min (50 * 2) img.height) =
      (sampledPixels img).flatMap (fun c =>
        [(img.pixel c.1 c.2).r.val, (img.pixel c.1 c.2).g.val, (img.pixel c.1 c.2).b.val,
         (img.pixel c.1 c.2).a.val]) :=
    getImageData_inside img _ _ _ _ (by rw [sampleStart_eq]; omega)
      (by rw [sampleStart_eq]; omega)
  have hlen : (sampledPixels img).length =
      min (50 * 2) img.height * min (50 * 2) img.width := length_rectangle _ _ _ _
  have hpos : 1 ≤ (sampledPixels img).length := by
    rw [hlen]; exact Nat.mul_pos (by omega) (by omega)
  have hsmall : (sampledPixels img).length < 2 ^ 45 := by
    rw [hlen]
    calc min (50 * 2) img.height * min (50 * 2) img.width ≤ 100 * 100 :=
          Nat.mul_le_mul (by omega) (by omega)
      _ < 2 ^ 45 := by norm_num
  have hquad : (4 * (sampledPixels img).length) / 4 = (sampledPixels img).length := by omega
  simp only [getDominantColor, hzero, if_false, hdata,
    sumChannels_flatMap (fun c => img.pixel c.1 c.2), length_flatMap_quad
      (fun c => img.pixel c.1 c.2), hquad, Nat.zero_add]
  rw [mathRoundDiv_eq _ _ hpos hsmall (sum_bytes_le (fun c => (img.pixel c.1 c.2).r) _),
    mathRoundDiv_eq _ _ hpos hsmall (sum_bytes_le (fun c => (img.pixel c.1 c.2).g) _),
    mathRoundDiv_eq _ _ hpos hsmall (sum_bytes_le (fun c => (img.pixel c.1 c.2).b) _)]

theorem isRoundedMean_div (channel : Nat × Nat → Byte) (coords : List (Nat × Nat))
    (hpos : 1 ≤ coords.length) :
    IsRoundedMean
      (((2 * (coords.map (fun c => (channel c).val)).sum + coords.length) /
        (2 * coords.length) : Nat) : Int)
      (coords.map (fun c => (channel c).val)) := by
  unfold IsRoundedMean
  rw [List.length_map]
  have hk := Nat.div_add_mod (2 * (coords.map (fun c => (channel c).val)).sum + coords.length)
    (2 * coords.length)
  have hmod := Nat.mod_lt (2 * (coords.map (fun c => (channel c).val)).sum + coords.length)
    (show 0 < 2 * coords.length by omega)
  generalize (2 * (coords.map (fun c => (channel c).val)).sum + coords.length) /
    (2 * coords.length) = k at hk
  generalize (2 * (coords.map (fun c => (channel c).val)).sum + coords.length) %
    (2 * coords.length) = rem at hk hmod
  generalize (coords.map (fun c => (channel c).val)).sum = total at hk
  generalize coords.length = n at hk hmod hpos
  have hk' : (2 * (n : Int) * k + rem : Int) = 2 * total + n := by exact_mod_cast hk
  have hmod' : (rem : Int) < 2 * n := by exact_mod_cast hmod
  have hrem0 : (0 : Int) ≤ rem := Int.natCast_nonneg rem
  constructor <;> nlinarith

theorem rounded_le (total n : Nat) (hpos : 1 ≤ n) (hle : total ≤ 255 * n) :
    (2 * total + n) / (2 * n) ≤ 255 := by
  have : (2 * total + n) / (2 * n) < 256 := by
    rw [Nat.div_lt_iff_lt_mul (by omega)]
    omega
  omega

/-! ## Dominant colour -/

/-- C18: for a decoded image of width and height at least 1, `getDominantColor` reads each pixel
of `sampledPixels` once; these are exactly the pixels of the image in the square around
`(floor(w/2), floor(h/2))` with half-width 50, `x` in `[floor(w/2) - 50, floor(w/2) + 50)` and
`y` in `[floor(h/2) - 50, floor(h/2) + 50)`, so the rectangle never leaves the image; and each
returned channel is the mean of that channel over these pixels rounded to the nearest integer,
the alpha values being skipped. -/
theorem dominant_color_center_mean (img : DecodedImage) (hw : 1 ≤ img.width)
    (hh : 1 ≤ img.height) :
    getImageData img (sampleStart (img.width / 2) 50) (sampleStart (img.height / 2) 50)
        (min (50 * 2) img.width) (min (50 * 2) img.height) =
      (sampledPixels img).flatMap (fun c =>
        [(img.pixel c.1 c.2).r.val, (img.pixel c.1 c.2).g.val, (img.pixel c.1 c.2).b.val,
         (img.pixel c.1 c.2).a.val]) ∧
    (sampledPixels img).Nodup ∧
    (∀ x y : Nat, (x, y) ∈ sampledPixels img ↔
      x < img.width ∧ y < img.height ∧
      ((img.width / 2 : Nat) : Int) - 50 ≤ x ∧ (x : Int) < ((img.width / 2 : Nat) : Int) + 50 ∧
      ((img.height / 2 : Nat) : Int) - 50 ≤ y ∧
      (y : Int) < ((img.height / 2 : Nat) : Int) + 50) ∧
    ∃ c : Color, getDominantColor (some img) = some c ∧
      IsRoundedMean c.r ((sampledPixels img).map (fun p => (img.pixel p.1 p.2).r.val)) ∧
      IsRoundedMean c.g ((sampledPixels img).map (fun p => (img.pixel p.1 p.2).g.val)) ∧
      IsRoundedMean c.b ((sampledPixels img).map (fun p => (img.pixel p.1 p.2).b.val)) := by
  have hpos : 1 ≤ (sampledPixels img).length := by
    rw [sampledPixels, length_rectangle]
    exact Nat.mul_pos (by omega) (by omega)
  refine ⟨?_, nodup_rectangle _ _ _ _, ?_, ?_⟩
  · exact getImageData_inside img _ _ _ _ (by rw [sampleStart_eq]; omega)
      (by rw [sampleStart_eq]; omega)
  · intro x y
    rw [sampledPixels, mem_rectangle, sampleStart_eq, sampleStart_eq]
    omega
  · exact ⟨_, getDominantColor_eq img hw hh,
      isRoundedMean_div (fun p => (img.pixel p.1 p.2).r) _ hpos,
      isRoundedMean_div (fun p => (img.pixel p.1 p.2).g) _ hpos,
      isRoundedMean_div (fun p => (img.pixel p.1 p.2).b) _ hpos⟩

set_option maxRecDepth 100000 in
/-- C18, on examples: a 3 by 2 image is sampled whole and its channel means 1.5, 2 and 1.5 give
{2, 2, 2}; of a 104 by 1 image the columns 2 to 101 are sampled. -/
theorem dominant_color_center_mean_witness :
    1 ≤ (gradientImage 3 2).width ∧ 1 ≤ (gradientImage 3 2).height ∧
    (getImageData (gradientImage 3 2) (sampleStart ((gradientImage 3 2).width / 2) 50)
        (sampleStart ((gradientImage 3 2).height / 2) 50)
        (min (50 * 2) (gradientImage 3 2).width) (min (50 * 2) (gradientImage 3 2).height) =
      (sampledPixels (gradientImage 3 2)).flatMap (fun c =>
        [((gradientImage 3 2).pixel c.1 c.2).r.val, ((gradientImage 3 2).pixel c.1 c.2).g.val,
         ((gradientImage 3 2).pixel c.1 c.2).b.val,
         ((gradientImage 3 2).pixel c.1 c.2).a.val]) ∧
    (sampledPixels (gradientImage 3 2)).Nodup ∧
    (∀ x y : Nat, (x, y) ∈ sampledPixels (gradientImage 3 2) ↔
      x < (gradientImage 3 2).width ∧ y < (gradientImage 3 2).height ∧
      (((gradientImage 3 2).width / 2 : Nat) : Int) - 50 ≤ x ∧
      (x : Int) < (((gradientImage 3 2).width / 2 : Nat) : Int) + 50 ∧
      (((gradientImage 3 2).height / 2 : Nat) : Int) - 50 ≤ y ∧
      (y : Int) < (((gradientImage 3 2).height / 2 : Nat) : Int) + 50) ∧
    ∃ c : Color, getDominantColor (some (gradientImage 3 2)) = some c ∧
      IsRoundedMean c.r ((sampledPixels (gradientImage 3 2)).map
        (fun p => ((gradientImage 3 2).pixel p.1 p.2).r.val)) ∧
      IsRoundedMean c.g ((sampledPixels (gradientImage 3 2)).map
        (fun p => ((gradientImage 3 2).pixel p.1 p.2).g.val)) ∧
      IsRoundedMean c.b ((sampledPixels (gradientImage 3 2)).map
        (fun p => ((gradientImage 3 2).pixel p.1 p.2).b.val))) ∧
    sampledPixels (gradientImage 3 2) = [(0, 0), (1, 0), (2, 0), (0, 1), (1, 1), (2, 1)] ∧
    getDominantColor (some (gradientImage 3 2)) = some ⟨2, 2, 2⟩ ∧
    (sampledPixels (gradientImage 104 1)).head? = some (2, 0) ∧
    (sampledPixels (gradientImage 104 1)).getLast? = some (101, 0) ∧
    getDominantColor (some (gradientImage 104 1)) = some ⟨52, 103, 0⟩ :=
  ⟨by decide, by decide,
   dominant_color_center_mean (gradientImage 3 2) (by decide) (by decide),
   by decide, by decide, by decide, by decide, by decide⟩

/-- C20: whenever `getDominantColor` returns a colour, for a decoded image or for one that does
not load, each of its channels `r`, `g`, `b` is an integer from 0 to 255; and it does return one
for every image that does not load and for every decoded image of width and height at least
1. -/
theorem dominant_color_channels_valid (loaded : Option DecodedImage) :
    (∀ c : Color, getDominantColor loaded = some c →
      0 ≤ c.r ∧ c.r ≤ 255 ∧ 0 ≤ c.g ∧ c.g ≤ 255 ∧ 0 ≤ c.b ∧ c.b ≤ 255) ∧
    ((∀ img, loaded = some img → 1 ≤ img.width ∧ 1 ≤ img.height) →
      ∃ c : Color, getDominantColor loaded = some c) := by
  cases loaded with
  | none =>
    refine ⟨fun c hc => ?_, fun _ => ⟨_, rfl⟩⟩
    simp only [getDominantColor, Option.some.injEq] at hc
    subst hc
    decide
  | some img =>
    by_cases hdim : 1 ≤ img.width ∧ 1 ≤ img.height
    · have heq := getDominantColor_eq img hdim.1 hdim.2
      have hpos : 1 ≤ (sampledPixels img).length := by
        rw [sampledPixels, length_rectangle]
        exact Nat.mul_pos (by omega) (by omega)
      refine ⟨fun c hc => ?_, fun _ => ⟨_, heq⟩⟩
      rw [heq, Option.some.injEq] at hc
      subst hc
      have hr := rounded_le _ _ hpos
        (sum_bytes_le (fun p => (img.pixel p.1 p.2).r) (sampledPixels img))
      have hg := rounded_le _ _ hpos
        (sum_bytes_le (fun p => (img.pixel p.1 p.2).g) (sampledPixels img))
      have hb := rounded_le _ _ hpos
        (sum_bytes_le (fun p => (img.pixel p.1 p.2).b) (sampledPixels img))
      dsimp only
      exact ⟨Int.natCast_nonneg _, by exact_mod_cast hr, Int.natCast_nonneg _,
        by exact_mod_cast hg, Int.natCast_nonneg _, by exact_mod_cast hb⟩
    · refine ⟨fun c hc => ?_, fun h => absurd (h img rfl) hdim⟩
      have hzero : min (50 * 2) img.width = 0 ∨ min (50 * 2) img.height = 0 := by omega
      have hnone : getDominantColor (some img) = none := by
        simp only [getDominantColor]
        exact if_pos hzero
      rw [hnone] at hc
      cases hc

/-! ## Lemmas on the worker -/

theorem searchPages_nil (toLowerCase : String → String) (query : Query) :
    searchPages toLowerCase [] query = [] := by
  have hfilter : filterPages toLowerCase [] query = [] := by
    unfold filterPages filterEndDate filterStartDate filterDomain filterColor filterText
    repeat' split
    all_goals simp
  simp [searchPages, hfilter, sortNewestFirst]

theorem ensureInitialized_start {CryptoKey Jwk : Type} (K : KeyPlatform CryptoKey Jwk)
    (entropy : List Nat) (storage : StorageArea Jwk) (database : Option Store)
    (hkey : storage.encryptionKey = none) :
    ensureInitialized K entropy false (Worker.start storage database) =
      { storage := { storage with
                     encryptionKey := some (K.exportKey (K.generateKey 256 entropy)) },
        database := some (database.getD Store.empty),
        connection := true,
        encryptionKey := some (K.generateKey 256 entropy),
        isInitialized := true } := by
  simp [ensureInitialized, initializeDB, SecureDB.initEncryption, SecureDB.openDB, Worker.start,
    hkey]

theorem transaction_closed {CryptoKey Jwk : Type} (w : Worker CryptoKey Jwk)
    (hclosed : w.connection = false) : SecureDB.transaction w = .error .typeError := by
  simp [SecureDB.transaction, hclosed]

theorem initializeDB_connection {CryptoKey Jwk : Type} (K : KeyPlatform CryptoKey Jwk)
    (entropy : List Nat) (openFails : Bool) (w : Worker CryptoKey Jwk)
    (hclosed : w.connection = false)
    (hfailed : (initializeDB K entropy openFails w).isInitialized = false) :
    (initializeDB K entropy openFails w).connection = false := by
  unfold initializeDB SecureDB.initEncryption SecureDB.openDB at *
  cases hstored : w.storage.encryptionKey with
  | none =>
    cases openFails
    · simp [hstored] at hfailed
    · simp [hstored, hclosed]
  | some stored =>
    cases himport : K.importKey stored 256 with
    | none => simp [hstored, himport, hclosed]
    | some key =>
      cases openFails
      · simp [hstored, himport] at hfailed
      · simp [hstored, himport, hclosed]

/-! ## Wipe, key initialisation and readiness -/

/-- C11: `deleteAllData` asks for the deletion while the connection that `ensureInitialized`
opened is still held by `this.db`; nothing closes it, so in every worker with an open
connection the request stays blocked, the promise does not settle and nothing changes. In the
worker that stored one page the wipe does not complete, the key material stays persisted, and
the search with the empty query afterwards returns the stored record, not an empty sequence. -/
theorem wipe_blocked_by_open_connection :
    (∀ (CryptoKey Jwk : Type) (K : KeyPlatform CryptoKey Jwk) (entropy : List Nat)
        (openFails deleteFails : Bool) (w : Worker CryptoKey Jwk),
        w.isInitialized = true → w.connection = true →
        onDeleteAllDataMessage K entropy openFails deleteFails w = (.pending, w)) ∧
      busyWorker.isInitialized = true ∧
      busyWorker.connection = true ∧
      busyWorker.storage.encryptionKey = some 1270 ∧
      onDeleteAllDataMessage referenceKeys [2, 7] false false busyWorker =
        (.pending, busyWorker) ∧
      (onDeleteAllDataMessage referenceKeys [2, 7] false false
        busyWorker).2.storage.encryptionKey = some 1270 ∧
      (onSearchMessage referenceKeys asciiLower [2, 7] false
          (onDeleteAllDataMessage referenceKeys [2, 7] false false busyWorker).2
          Query.empty).1 =
        .resolved [{ toPageData := exampleCapture 5961600000, id := 1 }] ∧
      (onSearchMessage referenceKeys asciiLower [2, 7] false
          (onDeleteAllDataMessage referenceKeys [2, 7] false false busyWorker).2
          Query.empty).1 ≠ .resolved [] := by
  refine ⟨?_, by decide, by decide, by decide, by decide, by decide, by decide, by decide⟩
  intro CryptoKey Jwk K entropy openFails deleteFails w hinit hconn
  simp [onDeleteAllDataMessage, ensureInitialized, hinit, SecureDB.deleteAllData, hconn]

/-- C12: `initEncryption` imports persisted key material when there is some and leaves the
key-value store as it is (when the import fails it is rejected and nothing changes); with no
persisted material it generates a 256-bit key and persists its exported form. On a platform
where importing an exported key gives the key back, running it a second time changes neither
the persisted material nor the key in memory. -/
theorem initEncryption_idempotent {CryptoKey Jwk : Type} (K : KeyPlatform CryptoKey Jwk)
    (first second : List Nat) (w : Worker CryptoKey Jwk)
    (hK : ∀ key : CryptoKey, K.importKey (K.exportKey key) 256 = some key) :
    (∀ stored key, w.storage.encryptionKey = some stored → K.importKey stored 256 = some key →
        SecureDB.initEncryption K first w = (.resolved (), { w with encryptionKey := some key }))
      ∧ (∀ stored, w.storage.encryptionKey = some stored → K.importKey stored 256 = none →
        SecureDB.initEncryption K first w = (.rejected .dataError, w))
      ∧ (w.storage.encryptionKey = none →
        SecureDB.initEncryption K first w =
          (.resolved (),
            { w with
              encryptionKey := some (K.generateKey 256 first),
              storage := { w.storage with
                           encryptionKey := some (K.exportKey (K.generateKey 256 first)) } }))
      ∧ (SecureDB.initEncryption K second (SecureDB.initEncryption K first w).2).2 =
          (SecureDB.initEncryption K first w).2
      ∧ (SecureDB.initEncryption K second (SecureDB.initEncryption K first w).2).2.storage =
          (SecureDB.initEncryption K first w).2.storage
      ∧ (SecureDB.initEncryption K second
            (SecureDB.initEncryption K first w).2).2.encryptionKey =
          (SecureDB.initEncryption K first w).2.encryptionKey := by
  have htwice : (SecureDB.initEncryption K second (SecureDB.initEncryption K first w).2).2 =
      (SecureDB.initEncryption K first w).2 := by
    cases hstored : w.storage.encryptionKey with
    | none => simp [SecureDB.initEncryption, hstored, hK]
    | some stored =>
      cases himport : K.importKey stored 256 with
      | none => simp [SecureDB.initEncryption, hstored, himport]
      | some key => simp [SecureDB.initEncryption, hstored, himport]
  refine ⟨?_, ?_, ?_, htwice, by rw [htwice], by rw [htwice]⟩
  · intro stored key hstored himport
    simp [SecureDB.initEncryption, hstored, himport]
  · intro stored hstored himport
    simp [SecureDB.initEncryption, hstored, himport]
  · intro hstored
    simp [SecureDB.initEncryption, hstored]

theorem initEncryption_idempotent_witness :
    (∀ key : Nat, referenceKeys.importKey (referenceKeys.exportKey key) 256 = some key) ∧
      SecureDB.initEncryption referenceKeys [2, 7]
          (Worker.start (StorageArea.empty : StorageArea Nat) none) =
        (.resolved (),
          { storage := { (StorageArea.empty : StorageArea Nat) with encryptionKey := some 1265 },
            database := none, connection := false, encryptionKey := some 265,
            isInitialized := false }) ∧
      (SecureDB.initEncryption referenceKeys [9, 9]
          (SecureDB.initEncryption referenceKeys [2, 7]
            (Worker.start (StorageArea.empty : StorageArea Nat) none)).2).2 =
        (SecureDB.initEncryption referenceKeys [2, 7]
          (Worker.start (StorageArea.empty : StorageArea Nat) none)).2 :=
  ⟨fun key => by simp [referenceKeys],
    by decide,
    (initEncryption_idempotent referenceKeys [2, 7] [9, 9]
      (Worker.start (StorageArea.empty : StorageArea Nat) none)
      (fun key => by simp [referenceKeys])).2.2.2.1⟩

/-- C13 (counterexample): after an initialisation in which the key was set up and opening the
store failed, the engine is not ready, and `encrypt` resolves with a payload that `decrypt`
turns back into the text; neither fails. -/
theorem encrypt_before_ready_counterexample :
    (initializeDB referenceKeys [3, 1, 4, 1, 5] true
        (Worker.start (StorageArea.empty : StorageArea Nat) none)).isInitialized = false ∧
      (initializeDB referenceKeys [3, 1, 4, 1, 5] true
        (Worker.start (StorageArea.empty : StorageArea Nat) none)).connection = false ∧
      (initializeDB referenceKeys [3, 1, 4, 1, 5] true
        (Worker.start (StorageArea.empty : StorageArea Nat) none)).database = none ∧
      SecureDB.encrypt referencePlatform
          (initializeDB referenceKeys [3, 1, 4, 1, 5] true
            (Worker.start (StorageArea.empty : StorageArea Nat) none))
          [1, 2, 3, 4, 5, 6, 7, 8, 9, 10, 11, 12] "shot" =
        .resolved (encrypt referencePlatform 270 [1, 2, 3, 4, 5, 6, 7, 8, 9, 10, 11, 12] "shot") ∧
      SecureDB.decrypt referencePlatform
          (initializeDB referenceKeys [3, 1, 4, 1, 5] true
            (Worker.start (StorageArea.empty : StorageArea Nat) none))
          (encrypt referencePlatform 270 [1, 2, 3, 4, 5, 6, 7, 8, 9, 10, 11, 12] "shot") =
        .resolved "shot" := by
  decide

/-- C13 (amended): there is no readiness check. While the store is not opened, `savePage`,
`searchPages`, `getScreenshot`, `cleanOldEntries` and `getStats` are rejected with the
`TypeError` of `this.db.transaction` and leave the worker as it is; while the key is not
initialised, `encrypt` and `decrypt` are rejected with a `TypeError`. After `ensureInitialized`
ran and the initialisation failed, the store is still not opened, so the five store operations
are rejected in that state too. -/
theorem operations_need_their_resource {CryptoKey Jwk : Type} (K : KeyPlatform CryptoKey Jwk)
    (P : WebPlatform CryptoKey) (toLowerCase : String → String) (w : Worker CryptoKey Jwk) :
    (w.connection = false →
        (∀ random pageData screenshot,
          SecureDB.savePage P random w pageData screenshot = (.rejected .typeError, w)) ∧
        (∀ query, SecureDB.searchPages toLowerCase w query = .rejected .typeError) ∧
        (∀ pageId, SecureDB.getScreenshot P w pageId = .rejected .typeError) ∧
        (∀ now daysToKeep,
          SecureDB.cleanOldEntries now daysToKeep w = (.rejected .typeError, w)) ∧
        SecureDB.getStats w = .rejected .typeError) ∧
      (w.encryptionKey = none →
        (∀ random data, SecureDB.encrypt P w random data = .rejected .typeError) ∧
        (∀ encryptedObj, SecureDB.decrypt P w encryptedObj = .rejected .typeError)) ∧
      (∀ entropy openFails, w.connection = false →
        (ensureInitialized K entropy openFails w).isInitialized = false →
        (ensureInitialized K entropy openFails w).connection = false ∧
        ∀ query, SecureDB.searchPages toLowerCase (ensureInitialized K entropy openFails w) query
          = .rejected .typeError) := by
  refine ⟨?_, ?_, ?_⟩
  · intro hclosed
    have htx := transaction_closed w hclosed
    refine ⟨?_, ?_, ?_, ?_, ?_⟩
    · intro random pageData screenshot
      simp [SecureDB.savePage, htx]
    · intro query
      simp [SecureDB.searchPages, htx]
    · intro pageId
      simp [SecureDB.getScreenshot, htx]
    · intro now daysToKeep
      simp [SecureDB.cleanOldEntries, htx]
    · simp [SecureDB.getStats, htx]
  · intro hkey
    exact ⟨fun random data => by simp [SecureDB.encrypt, hkey],
      fun encryptedObj => by simp [SecureDB.decrypt, hkey]⟩
  · intro entropy openFails hclosed hfailed
    have hconn : (ensureInitialized K entropy openFails w).connection = false := by
      unfold ensureInitialized at hfailed ⊢
      split
      · exact hclosed
      · rename_i hflag
        rw [if_neg hflag] at hfailed
        exact initializeDB_connection K entropy openFails w hclosed hfailed
    refine ⟨hconn, fun query => ?_⟩
    simp [SecureDB.searchPages, transaction_closed _ hconn]

/-! ## Lemmas on `capturePage` -/

theorem initializeDB_frame {CryptoKey Jwk : Type} (K : KeyPlatform CryptoKey Jwk)
    (entropy : List Nat) (openFails : Bool) (w : Worker CryptoKey Jwk) :
    (initializeDB K entropy openFails w).storage.get
          ["enabled", "excludeIncognito", "excludeDomains"] =
        w.storage.get ["enabled", "excludeIncognito", "excludeDomains"] ∧
      (initializeDB K entropy openFails w).pages = w.pages ∧
      (initializeDB K entropy openFails w).screenshots = w.screenshots := by
  unfold initializeDB SecureDB.initEncryption SecureDB.openDB
  cases hstored : w.storage.encryptionKey with
  | none =>
    cases openFails <;> cases hdb : w.database <;>
      simp [StorageArea.get, Worker.pages, Worker.screenshots, hdb, Store.empty]
  | some stored =>
    cases himport : K.importKey stored 256 with
    | none => simp [himport]
    | some key =>
      cases openFails <;> cases hdb : w.database <;>
        simp [StorageArea.get, Worker.pages, Worker.screenshots, hdb, Store.empty, himport]

theorem ensureInitialized_settings {CryptoKey Jwk : Type} (K : KeyPlatform CryptoKey Jwk)
    (entropy : List Nat) (openFails : Bool) (w : Worker CryptoKey Jwk) :
    (ensureInitialized K entropy openFails w).storage.get
        ["enabled", "excludeIncognito", "excludeDomains"] =
      w.storage.get ["enabled", "excludeIncognito", "excludeDomains"] := by
  unfold ensureInitialized
  split
  · rfl
  · exact (initializeDB_frame K entropy openFails w).1

theorem ensureInitialized_records {CryptoKey Jwk : Type} (K : KeyPlatform CryptoKey Jwk)
    (entropy : List Nat) (openFails : Bool) (w : Worker CryptoKey Jwk) :
    (ensureInitialized K entropy openFails w).pages = w.pages ∧
      (ensureInitialized K entropy openFails w).screenshots = w.screenshots := by
  unfold ensureInitialized
  split
  · exact ⟨rfl, rfl⟩
  · exact (initializeDB_frame K entropy openFails w).2

theorem settings_captureInterval {Jwk : Type} (storage : StorageArea Jwk) :
    (storage.get ["enabled", "excludeIncognito", "excludeDomains"]).captureInterval = none := by
  simp [StorageArea.get]

theorem capturePage_of_gate {CryptoKey Jwk : Type} (K : KeyPlatform CryptoKey Jwk)
    (P : WebPlatform CryptoKey) (env : CaptureEnv) (tab : Tab) (w : Worker CryptoKey Jwk) :
    capturePage K P env tab w =
      match policyGate env.hostname
          (w.storage.get ["enabled", "excludeIncognito", "excludeDomains"]) tab with
      | .skip => (ensureInitialized K env.entropy env.openFails w, [])
      | .throws => (ensureInitialized K env.entropy env.openFails w, [.consoleError])
      | .pass hostname =>
        captureAfterGate P env tab (ensureInitialized K env.entropy env.openFails w)
          (w.storage.get ["enabled", "excludeIncognito", "excludeDomains"]) hostname := by
  simp only [capturePage, ensureInitialized_settings]

theorem policyGate_skip {Jwk : Type} (hostname : String → Option String)
    (settings : StorageArea Jwk) (tab : Tab)
    (hgate : settings.enabled ≠ some true ∨
      (settings.excludeIncognito = some true ∧ tab.incognito = true) ∨
      ∃ host domains, hostname tab.url = some host ∧ settings.excludeDomains = some domains ∧
        host ∈ domains) :
    policyGate hostname settings tab = .skip := by
  unfold policyGate
  by_cases henabled : settings.enabled ≠ some true
  · rw [if_pos henabled]
  · rw [if_neg henabled]
    by_cases hincognito : settings.excludeIncognito = some true ∧ tab.incognito = true
    · rw [if_pos hincognito]
    · rw [if_neg hincognito]
      rcases hgate with h | h | ⟨host, domains, hhost, hdomains, hmem⟩
      · exact absurd h henabled
      · exact absurd h hincognito
      · simp [hhost, hdomains, hmem]

theorem policyGate_of_no_http {Jwk : Type} (hostname : String → Option String)
    (settings : StorageArea Jwk) (tab : Tab) (hscheme : startsWith tab.url "http" = false) :
    policyGate hostname settings tab = .skip ∨ policyGate hostname settings tab = .throws := by
  unfold policyGate
  split
  · exact Or.inl rfl
  · split
    · exact Or.inl rfl
    · split
      · exact Or.inr rfl
      · split
        · exact Or.inl rfl
        · simp [hscheme]

theorem captureAfterGate_delay {CryptoKey Jwk : Type} (P : WebPlatform CryptoKey)
    (env : CaptureEnv) (tab : Tab) (w : Worker CryptoKey Jwk) (settings : StorageArea Jwk)
    (hostname : String) (hinterval : settings.captureInterval = none) :
    ∃ rest, (captureAfterGate P env tab w settings hostname).2 = .setTimeout 3000 :: rest ∧
      ∀ effect ∈ rest, ∀ delay, effect ≠ .setTimeout delay := by
  unfold captureAfterGate
  simp only [hinterval]
  split
  · exact ⟨_, rfl, by simp⟩
  · split
    · exact ⟨_, rfl, by simp⟩
    · exact ⟨_, rfl, by simp⟩
    · split
      · exact ⟨_, rfl, by simp⟩
      · split
        · exact ⟨_, rfl, by simp⟩
        · exact ⟨_, rfl, by simp⟩
        · exact ⟨_, rfl, by simp⟩

theorem captureAfterGate_object {CryptoKey Jwk : Type} (P : WebPlatform CryptoKey)
    (env : CaptureEnv) (tab : Tab) (w : Worker CryptoKey Jwk) (settings : StorageArea Jwk)
    (hostname : String) (pageData : PageInfo) (hreply : env.reply = .object pageData) :
    (captureAfterGate P env tab w settings hostname).1 = w ∧
      ∀ effect ∈ (captureAfterGate P env tab w settings hostname).2,
        effect.isSavePage = false := by
  unfold captureAfterGate
  cases hshot : env.screenshot with
  | none => simp [Effect.isSavePage]
  | some screenshot => simp [hreply, firstOfReply, Effect.isSavePage]

theorem captureAfterGate_fallback {CryptoKey Jwk : Type} (P : WebPlatform CryptoKey)
    (env : CaptureEnv) (tab : Tab) (w : Worker CryptoKey Jwk) (settings : StorageArea Jwk)
    (hostname screenshot : String) (pageData : PageInfo) (rest : List (Option PageInfo))
    (hshot : env.screenshot = some screenshot)
    (hreply : env.reply = .array (some pageData :: rest))
    (hload : env.load screenshot = none) :
    Effect.savePage (buildPageRecord tab hostname env.now ⟨128, 128, 128⟩ pageData) screenshot ∈
      (captureAfterGate P env tab w settings hostname).2 := by
  have hfirst : firstOfReply env.reply = .ok (some pageData) := by
    rw [hreply]
    rfl
  unfold captureAfterGate
  simp only [hshot, hfirst, hload, getDominantColor]
  split <;> simp

/-! ## The policy gate and the capture -/

/-- C14: the guard looks at the first four characters of the url, not at its scheme. A url that
does not start with `http` is skipped with no collaborator call and no record; a url with the
scheme `httpx` passes the guard: both collaborators are called, and with a reply that
`capturePage` can read a record of the `httpx` page is written. -/
theorem scheme_gate_tests_prefix :
    (∀ (CryptoKey Jwk : Type) (K : KeyPlatform CryptoKey Jwk) (P : WebPlatform CryptoKey)
        (env : CaptureEnv) (tab : Tab) (w : Worker CryptoKey Jwk),
        startsWith tab.url "http" = false →
        (∀ effect ∈ (capturePage K P env tab w).2,
          effect.isCollaboratorCall = false ∧ effect.isSavePage = false) ∧
        (capturePage K P env tab w).1.pages = w.pages ∧
        (capturePage K P env tab w).1.screenshots = w.screenshots) ∧
      urlScheme httpxTab.url = some "httpx" ∧
      urlScheme httpxTab.url ≠ some "http" ∧
      urlScheme httpxTab.url ≠ some "https" ∧
      (capturePage referenceKeys referencePlatform exampleEnv httpxTab freshWorker).2 =
        [.setTimeout 3000, .captureVisibleTab 2, .sendMessage 7, .consoleError] ∧
      (capturePage referenceKeys referencePlatform arrayReplyEnv httpxTab freshWorker).1.pages =
        [{ url := some "httpx://news.example/today", title := some "Today",
           domain := some "news.example", timestamp := 7000000000,
           dominantColor := some ⟨2, 2, 2⟩, textContent := some "Alpha guide to everything",
           hasImages := true, hasVideos := false, hasCode := true, id := 1 }] := by
  refine ⟨?_, by decide, by decide, by decide, by decide, by decide⟩
  intro CryptoKey Jwk K P env tab w hscheme
  have hrecords := ensureInitialized_records K env.entropy env.openFails w
  rw [capturePage_of_gate]
  rcases policyGate_of_no_http env.hostname
      (w.storage.get ["enabled", "excludeIncognito", "excludeDomains"]) tab hscheme with h | h
  · rw [h]
    exact ⟨by simp, hrecords⟩
  · rw [h]
    exact ⟨by simp [Effect.isCollaboratorCall, Effect.isSavePage], hrecords⟩

/-- C15: when capturing is not enabled in the settings, or the tab is incognito while
`excludeIncognito` is set, or the hostname of the url of the tab is in `excludeDomains`,
`capturePage` returns with no effect at all: no collaborator call, no call of `savePage`, and the
page records and screenshots of the store are the ones from before. -/
theorem settings_gate_no_effects {CryptoKey Jwk : Type} (K : KeyPlatform CryptoKey Jwk)
    (P : WebPlatform CryptoKey) (env : CaptureEnv) (tab : Tab) (w : Worker CryptoKey Jwk)
    (hgate : w.storage.enabled ≠ some true ∨
      (w.storage.excludeIncognito = some true ∧ tab.incognito = true) ∨
      ∃ host domains, env.hostname tab.url = some host ∧
        w.storage.excludeDomains = some domains ∧ host ∈ domains) :
    (capturePage K P env tab w).2 = [] ∧
      (capturePage K P env tab w).1.pages = w.pages ∧
      (capturePage K P env tab w).1.screenshots = w.screenshots := by
  have hskip : policyGate env.hostname
      (w.storage.get ["enabled", "excludeIncognito", "excludeDomains"]) tab = .skip := by
    apply policyGate_skip
    simpa [StorageArea.get] using hgate
  rw [capturePage_of_gate, hskip]
  exact ⟨rfl, ensureInitialized_records K env.entropy env.openFails w⟩

theorem settings_gate_no_effects_witness :
    (freshWorker.storage.enabled ≠ some true ∨
      (freshWorker.storage.excludeIncognito = some true ∧ excludedTab.incognito = true) ∨
      ∃ host domains, arrayReplyEnv.hostname excludedTab.url = some host ∧
        freshWorker.storage.excludeDomains = some domains ∧ host ∈ domains) ∧
      (capturePage referenceKeys referencePlatform arrayReplyEnv excludedTab freshWorker).2 = [] ∧
      (capturePage referenceKeys referencePlatform arrayReplyEnv excludedTab
        freshWorker).1.pages = freshWorker.pages ∧
      (capturePage referenceKeys referencePlatform arrayReplyEnv excludedTab
        freshWorker).1.screenshots = freshWorker.screenshots :=
  ⟨Or.inr (Or.inr ⟨"private.example", ["private.example"], by decide, by decide, by decide⟩),
    settings_gate_no_effects referenceKeys referencePlatform arrayReplyEnv excludedTab
      freshWorker
      (Or.inr (Or.inr ⟨"private.example", ["private.example"], by decide, by decide,
        by decide⟩))⟩

/-- C16: `content.js` answers `getPageData` with the object of `extractPageData`, and
`capturePage` destructures the reply as an array. For every reply that is such an object the
destructuring throws, `savePage` is not called and the store keeps its records; the tab of the
example passes the guards, both collaborators are called, and the run ends in the `catch`. Only
with an array around the object is the record built and handed to `savePage`. -/
theorem object_reply_never_saved :
    (∀ (CryptoKey Jwk : Type) (K : KeyPlatform CryptoKey Jwk) (P : WebPlatform CryptoKey)
        (env : CaptureEnv) (tab : Tab) (w : Worker CryptoKey Jwk) (pageData : PageInfo),
        env.reply = .object pageData →
        (∀ effect ∈ (capturePage K P env tab w).2, effect.isSavePage = false) ∧
        (capturePage K P env tab w).1.pages = w.pages ∧
        (capturePage K P env tab w).1.screenshots = w.screenshots) ∧
      policyGate exampleEnv.hostname
          (freshWorker.storage.get ["enabled", "excludeIncognito", "excludeDomains"])
          exampleTab = .pass "news.example" ∧
      (capturePage referenceKeys referencePlatform exampleEnv exampleTab freshWorker).2 =
        [.setTimeout 3000, .captureVisibleTab 2, .sendMessage 7, .consoleError] ∧
      (capturePage referenceKeys referencePlatform exampleEnv exampleTab freshWorker).1.pages =
        [] ∧
      (capturePage referenceKeys referencePlatform arrayReplyEnv exampleTab freshWorker).2 =
        [.setTimeout 3000, .captureVisibleTab 2, .sendMessage 7,
          .savePage
            { url := some "https://news.example/today", title := some "Today",
              domain := some "news.example", timestamp := 7000000000,
              dominantColor := some ⟨2, 2, 2⟩,
              textContent := some "Alpha guide to everything",
              hasImages := true, hasVideos := false, hasCode := true }
            "data:image/jpeg;base64,/9j/4AAQ"] := by
  refine ⟨?_, by decide, by decide, by decide, by decide⟩
  intro CryptoKey Jwk K P env tab w pageData hreply
  have hrecords := ensureInitialized_records K env.entropy env.openFails w
  rw [capturePage_of_gate]
  split
  · exact ⟨by simp, hrecords⟩
  · exact ⟨by simp [Effect.isSavePage], hrecords⟩
  · rename_i hostname _
    have hobject := captureAfterGate_object P env tab
      (ensureInitialized K env.entropy env.openFails w)
      (w.storage.get ["enabled", "excludeIncognito", "excludeDomains"]) hostname pageData hreply
    rw [hobject.1]
    exact ⟨hobject.2, hrecords⟩

/-- C17: `capturePage` reads the settings `enabled`, `excludeIncognito` and `excludeDomains`
only, so `settings.captureInterval` is undefined and the delay handed to the timer is 3000 ms
whatever is persisted; with a persisted `captureInterval` of 5000 the timer gets 3000. -/
theorem settle_delay_ignores_setting :
    (∀ (CryptoKey Jwk : Type) (K : KeyPlatform CryptoKey Jwk) (P : WebPlatform CryptoKey)
        (env : CaptureEnv) (tab : Tab) (w : Worker CryptoKey Jwk),
        ∀ effect ∈ (capturePage K P env tab w).2, ∀ delay : Int,
          effect = .setTimeout delay → delay = 3000) ∧
      freshWorker.storage.captureInterval = some 5000 ∧
      (capturePage referenceKeys referencePlatform arrayReplyEnv exampleTab
        freshWorker).2.head? = some (.setTimeout 3000) ∧
      Effect.setTimeout 5000 ∉
        (capturePage referenceKeys referencePlatform arrayReplyEnv exampleTab freshWorker).2 := by
  refine ⟨?_, by decide, by decide, by decide⟩
  intro CryptoKey Jwk K P env tab w effect hmem delay heffect
  rw [capturePage_of_gate] at hmem
  split at hmem
  · simp at hmem
  · simp [heffect] at hmem
  · rename_i hostname _
    obtain ⟨rest, heq, hrest⟩ := captureAfterGate_delay P env tab
      (ensureInitialized K env.entropy env.openFails w)
      (w.storage.get ["enabled", "excludeIncognito", "excludeDomains"]) hostname
      (settings_captureInterval w.storage)
    rw [heq, List.mem_cons] at hmem
    rcases hmem with h | h
    · rw [heffect] at h
      injection h
    · exact absurd heffect (hrest effect h delay)

/-- C19: when the image does not load, `getDominantColor` resolves with `{r: 128, g: 128,
b: 128}`; it does not reject or stay pending. The capture that called it goes on: for a tab that
passed the guards, with a screenshot taken and page data received, `savePage` is called with
the record whose `dominantColor` is that gray. -/
theorem dominant_color_fallback {CryptoKey Jwk : Type} (K : KeyPlatform CryptoKey Jwk)
    (P : WebPlatform CryptoKey) (env : CaptureEnv) (tab : Tab) (w : Worker CryptoKey Jwk)
    (hostname screenshot : String) (pageData : PageInfo) (rest : List (Option PageInfo))
    (hgate : policyGate env.hostname
      (w.storage.get ["enabled", "excludeIncognito", "excludeDomains"]) tab = .pass hostname)
    (hshot : env.screenshot = some screenshot)
    (hreply : env.reply = .array (some pageData :: rest))
    (hload : env.load screenshot = none) :
    getDominantColor (env.load screenshot) = some ⟨128, 128, 128⟩ ∧
      Effect.savePage (buildPageRecord tab hostname env.now ⟨128, 128, 128⟩ pageData)
          screenshot ∈ (capturePage K P env tab w).2 ∧
      (buildPageRecord tab hostname env.now ⟨128, 128, 128⟩ pageData).dominantColor =
        some ⟨128, 128, 128⟩ := by
  refine ⟨by rw [hload]; rfl, ?_, rfl⟩
  rw [capturePage_of_gate, hgate]
  exact captureAfterGate_fallback P env tab _ _ hostname screenshot pageData rest hshot hreply
    hload

theorem dominant_color_fallback_witness :
    policyGate undecodableEnv.hostname
        (freshWorker.storage.get ["enabled", "excludeIncognito", "excludeDomains"]) exampleTab =
        .pass "news.example" ∧
      undecodableEnv.load "data:image/jpeg;base64,/9j/4AAQ" = none ∧
      getDominantColor (undecodableEnv.load "data:image/jpeg;base64,/9j/4AAQ") =
        some ⟨128, 128, 128⟩ ∧
      Effect.savePage
          (buildPageRecord exampleTab "news.example" undecodableEnv.now ⟨128, 128, 128⟩
            { textContent := some "Alpha guide to everything", hasImages := true,
              hasVideos := false, hasCode := true })
          "data:image/jpeg;base64,/9j/4AAQ" ∈
        (capturePage referenceKeys referencePlatform undecodableEnv exampleTab freshWorker).2 ∧
      (buildPageRecord exampleTab "news.example" undecodableEnv.now ⟨128, 128, 128⟩
          { textContent := some "Alpha guide to everything", hasImages := true,
            hasVideos := false, hasCode := true }).dominantColor = some ⟨128, 128, 128⟩ :=
  ⟨by decide, rfl,
    dominant_color_fallback referenceKeys referencePlatform undecodableEnv exampleTab
      freshWorker "news.example" "data:image/jpeg;base64,/9j/4AAQ"
      { textContent := some "Alpha guide to everything", hasImages := true,
        hasVideos := false, hasCode := true } [] (by decide) rfl rfl rfl⟩

/-! ## Lemmas on the reachable database -/

theorem paired_empty {CryptoKey : Type} (P : WebPlatform CryptoKey) (key : CryptoKey) :
    Store.empty.Paired P key where
  ids_nodup := by simp [Store.empty]
  ids_lt := by simp [Store.empty]
  blob_live := by simp [Store.empty]
  blob_nodup := by simp [Store.empty]
  blob_encrypted := by simp [Store.empty]

theorem savePage_eq {CryptoKey : Type} (P : WebPlatform CryptoKey) (key : CryptoKey)
    (random : List Nat) (db : Store) (pageData : PageData) (screenshot : Option String) :
    savePage P key random db pageData screenshot =
      ({ pages := db.pages ++ [{ toPageData := pageData, id := db.nextId }],
         screenshots := db.screenshots,
         nextId := db.nextId + 1 },
        match screenshot with
        | some s => if s ≠ "" then .pending else .resolved db.nextId
        | none => .resolved db.nextId) := by
  unfold savePage
  cases screenshot with
  | none => rfl
  | some s =>
    by_cases hs : s = ""
    · simp [hs]
    · simp [hs]

theorem blob_id_lt {CryptoKey : Type} (P : WebPlatform CryptoKey) (key : CryptoKey)
    (db : Store) (hdb : db.Paired P key) (blob : ScreenshotBlob) (hblob : blob ∈ db.screenshots) :
    blob.pageId < db.nextId := by
  obtain ⟨page, hpage, hid⟩ := hdb.blob_live blob hblob
  rw [← hid]
  exact hdb.ids_lt page hpage

theorem paired_savePage {CryptoKey : Type} (P : WebPlatform CryptoKey) (key : CryptoKey)
    (random : List Nat) (db : Store) (pageData : PageData) (screenshot : Option String)
    (hdb : db.Paired P key) :
    (savePage P key random db pageData screenshot).1.Paired P key := by
  rw [savePage_eq]
  have hfresh : db.nextId ∉ db.pages.map (fun page => page.id) := by
    intro hmem
    obtain ⟨page, hpage, hid⟩ := List.mem_map.1 hmem
    have := hdb.ids_lt page hpage
    omega
  refine ⟨?_, ?_, ?_, hdb.blob_nodup, hdb.blob_encrypted⟩
  · dsimp only
    rw [List.map_append, List.nodup_append]
    refine ⟨hdb.ids_nodup, by simp, ?_⟩
    intro a ha hb
    simp only [List.map_cons, List.map_nil, List.mem_singleton] at hb
    subst hb
    exact hfresh ha
  · intro page hpage
    dsimp only at hpage ⊢
    rcases List.mem_append.1 hpage with h | h
    · have := hdb.ids_lt page h
      omega
    · simp only [List.mem_singleton] at h
      subst h
      exact Nat.lt_succ_self _
  · intro blob hblob
    dsimp only at hblob ⊢
    obtain ⟨page, hpage, hid⟩ := hdb.blob_live blob hblob
    exact ⟨page, List.mem_append_left _ hpage, hid⟩

theorem paired_cleanOldEntries {CryptoKey : Type} (P : WebPlatform CryptoKey) (key : CryptoKey)
    (now : Int) (daysToKeep : Option Int) (db : Store) (hdb : db.Paired P key) :
    (cleanOldEntries now daysToKeep db).1.Paired P key := by
  have hpages : (cleanOldEntries now daysToKeep db).1.pages =
      db.pages.filter (fun page => page.id ∉
        (openCursor db.pages (now - (daysToKeep.getD 30) * 24 * 60 * 60 * 1000)).map
          (fun v => v.id)) := by
    simp [cleanOldEntries, cursorLoop_eq]
  have hblobs := cleanOldEntries_deletedIds now daysToKeep db
  have hnext : (cleanOldEntries now daysToKeep db).1.nextId = db.nextId := rfl
  refine ⟨?_, ?_, ?_, ?_, ?_⟩
  · rw [hpages]
    exact (List.filter_sublist _).map _ |>.nodup hdb.ids_nodup
  · intro page hpage
    rw [hpages] at hpage
    rw [hnext]
    exact hdb.ids_lt page (List.mem_filter.1 hpage).1
  · intro blob hblob
    rw [hblobs] at hblob
    obtain ⟨hmem, hkeep⟩ := List.mem_filter.1 hblob
    obtain ⟨page, hpage, hid⟩ := hdb.blob_live blob hmem
    refine ⟨page, ?_, hid⟩
    rw [hpages, List.mem_filter]
    refine ⟨hpage, ?_⟩
    rw [hid]
    exact hkeep
  · rw [hblobs]
    exact (List.filter_sublist _).map _ |>.nodup hdb.blob_nodup
  · intro blob hblob
    rw [hblobs] at hblob
    exact hdb.blob_encrypted blob (List.mem_filter.1 hblob).1

theorem paired_foldl {CryptoKey : Type} (P : WebPlatform CryptoKey) (key : CryptoKey) :
    ∀ (operations : List StoreOperation) (db : Store), db.Paired P key →
      (operations.foldl (StoreOperation.apply P key) db).Paired P key
  | [], _, hdb => hdb
  | .savePage random pageData screenshot :: rest, db, hdb =>
    paired_foldl P key rest _ (paired_savePage P key random db pageData screenshot hdb)
  | .cleanOldEntries now daysToKeep :: rest, db, hdb =>
    paired_foldl P key rest _ (paired_cleanOldEntries P key now daysToKeep db hdb)

theorem paired_reachedStore {CryptoKey : Type} (P : WebPlatform CryptoKey) (key : CryptoKey)
    (operations : List StoreOperation) : (reachedStore P key operations).Paired P key :=
  paired_foldl P key operations Store.empty (paired_empty P key)

theorem find_blob {CryptoKey : Type} (P : WebPlatform CryptoKey) (key : CryptoKey)
    (db : Store) (hdb : db.Paired P key) (blob : ScreenshotBlob) (hblob : blob ∈ db.screenshots) :
    db.screenshots.find? (fun other => other.pageId = blob.pageId) = some blob := by
  cases hfind : db.screenshots.find? (fun other => other.pageId = blob.pageId) with
  | none =>
    rw [List.find?_eq_none] at hfind
    exact absurd (decide_eq_true rfl) (hfind blob hblob)
  | some other =>
    have hmem := List.mem_of_find?_eq_some hfind
    have hsome := List.find?_some hfind
    have hid : other.pageId = blob.pageId := of_decide_eq_true hsome
    rw [List.inj_on_of_nodup_map hdb.blob_nodup hmem hblob hid]

theorem screenshots_foldl {CryptoKey : Type} (P : WebPlatform CryptoKey) (key : CryptoKey) :
    ∀ (operations : List StoreOperation) (db : Store), db.screenshots = [] →
      (operations.foldl (StoreOperation.apply P key) db).screenshots = []
  | [], _, hdb => hdb
  | .savePage random pageData screenshot :: rest, db, hdb =>
    screenshots_foldl P key rest _ (by
      show (savePage P key random db pageData screenshot).1.screenshots = []
      rw [savePage_eq]
      exact hdb)
  | .cleanOldEntries now daysToKeep :: rest, db, hdb =>
    screenshots_foldl P key rest _ (by
      show (cleanOldEntries now daysToKeep db).1.screenshots = []
      rw [cleanOldEntries_deletedIds, hdb]
      rfl)

theorem retentionExample_paired : retentionExample.Paired referencePlatform 5 where
  ids_nodup := by decide
  ids_lt := by decide
  blob_live := by decide
  blob_nodup := by decide
  blob_encrypted := by
    intro blob hblob
    simp only [retentionExample, List.mem_cons, List.mem_singleton, List.not_mem_nil,
      or_false] at hblob
    rcases hblob with h | h
    · exact ⟨[12, 11, 10, 9, 8, 7, 6, 5, 4, 3, 2, 1], "old shot", by rw [h]⟩
    · exact ⟨[1, 2, 3, 4, 5, 6, 7, 8, 9, 10, 11, 12], "new shot", by rw [h]⟩

theorem deleteAllData_done {CryptoKey Jwk : Type} (deleteFails : Bool)
    (w : Worker CryptoKey Jwk)
    (hdone : (SecureDB.deleteAllData deleteFails w).1 = .resolved ()) :
    (SecureDB.deleteAllData deleteFails w).2 =
      { w with database := none, storage := StorageArea.empty } := by
  unfold SecureDB.deleteAllData at hdone ⊢
  cases hconn : w.connection <;> cases deleteFails <;> simp [hconn] at hdone ⊢

/-! ## Lemmas on the single-file search and on capturing while disabled -/

theorem inlineFilterColor_eq (color : Option Color) (results : List PageRecord) :
    inlineFilterColor color results = filterColor color results := by
  cases color with
  | none => rfl
  | some c =>
    simp only [inlineFilterColor, filterColor]
    apply List.filter_congr
    intro page _
    unfold inlineColorMatches colorDistance
    cases page.dominantColor with
    | none => simp [doubleOfNat]
    | some pageColor => rfl

theorem inlineSearchPages_eq (toLowerCase : String → String) (all : List PageRecord)
    (query : Query) :
    inlineSearchPages toLowerCase all query =
      searchPages toLowerCase all { query with domain := none } := by
  simp only [inlineSearchPages, searchPages, filterPages, filterDomain, inlineFilterColor_eq]

theorem searchPages_without_domain (toLowerCase : String → String) (all : List PageRecord)
    (query : Query) (hdomain : query.domain = none ∨ query.domain = some "") :
    searchPages toLowerCase all { query with domain := none } =
      searchPages toLowerCase all query := by
  rcases hdomain with h | h <;> simp [searchPages, filterPages, filterDomain, h]

theorem policyGate_disabled {Jwk : Type} (hostname : String → Option String)
    (settings : StorageArea Jwk) (tab : Tab) (hdisabled : settings.enabled ≠ some true) :
    policyGate hostname settings tab = .skip := by
  unfold policyGate
  rw [if_pos hdisabled]

theorem ensureInitialized_enabled {CryptoKey Jwk : Type} (K : KeyPlatform CryptoKey Jwk)
    (entropy : List Nat) (openFails : Bool) (w : Worker CryptoKey Jwk) :
    (ensureInitialized K entropy openFails w).storage.enabled = w.storage.enabled := by
  have h := congrArg StorageArea.enabled (ensureInitialized_settings K entropy openFails w)
  simpa [StorageArea.get] using h

theorem capturePage_disabled {CryptoKey Jwk : Type} (K : KeyPlatform CryptoKey Jwk)
    (P : WebPlatform CryptoKey) (env : CaptureEnv) (tab : Tab) (w : Worker CryptoKey Jwk)
    (hdisabled : w.storage.enabled ≠ some true) :
    capturePage K P env tab w = (ensureInitialized K env.entropy env.openFails w, []) := by
  rw [capturePage_of_gate, policyGate_disabled]
  simpa [StorageArea.get] using hdisabled

theorem runEvents_disabled {CryptoKey Jwk : Type} (K : KeyPlatform CryptoKey Jwk)
    (P : WebPlatform CryptoKey) :
    ∀ (events : List WorkerEvent) (w : Worker CryptoKey Jwk), w.storage.enabled ≠ some true →
      (runEvents K P events w).2 = [] ∧
      (runEvents K P events w).1.pages = w.pages ∧
      (runEvents K P events w).1.screenshots = w.screenshots ∧
      (runEvents K P events w).1.storage.enabled = w.storage.enabled
  | [], _, _ => ⟨rfl, rfl, rfl, rfl⟩
  | .tabComplete env tab :: rest, w, hdisabled => by
    have hcapture := capturePage_disabled K P env tab w hdisabled
    have henabled := ensureInitialized_enabled K env.entropy env.openFails w
    have hrecords := ensureInitialized_records K env.entropy env.openFails w
    have ih := runEvents_disabled K P rest (ensureInitialized K env.entropy env.openFails w)
      (by rw [henabled]; exact hdisabled)
    simp only [runEvents, hcapture, List.nil_append]
    exact ⟨ih.1, ih.2.1.trans hrecords.1, ih.2.2.1.trans hrecords.2, ih.2.2.2.trans henabled⟩
  | .restart :: rest, w, hdisabled => by
    have ih := runEvents_disabled K P rest w.restart hdisabled
    simp only [runEvents]
    exact ⟨ih.1, ih.2.1, ih.2.2.1, ih.2.2.2⟩

/-! ## Screenshot lookup, the pairing of records and blobs, the two searches, and capture after a wipe -/

/-- C21: every database reached through `savePage` and `cleanOldEntries` has distinct blob
keys and only blobs that are encryptions under the key. On every database of that kind, and a
platform whose JSON and text codecs round-trip strings, `getScreenshot(pageId)` resolves with
`null` when no blob is stored under `pageId`, in particular for the id that `savePage` returned
for a record saved without a screenshot, and it resolves with the decrypted screenshot when a
blob is stored under `pageId`. It is never rejected. -/
theorem getScreenshot_absent_or_decrypted {CryptoKey : Type} (P : WebPlatform CryptoKey)
    (hP : P.Serializes) (key : CryptoKey) (operations : List StoreOperation) (pageId : Nat) :
    (reachedStore P key operations).Paired P key ∧
      ∀ db : Store, db.Paired P key →
        ((∀ blob ∈ db.screenshots, blob.pageId ≠ pageId) →
          getScreenshot P key db pageId = .resolved none) ∧
        (∀ random pageData,
          (savePage P key random db pageData none).2 = .resolved db.nextId ∧
          getScreenshot P key (savePage P key random db pageData none).1 db.nextId =
            .resolved none) ∧
        (∀ blob ∈ db.screenshots, blob.pageId = pageId →
          ∃ decrypted, decrypt P key blob.screenshot = .resolved decrypted ∧
            getScreenshot P key db pageId = .resolved (some decrypted)) ∧
        ∀ error, getScreenshot P key db pageId ≠ .rejected error := by
  refine ⟨paired_reachedStore P key operations, ?_⟩
  intro db hdb
  have hfound : ∀ blob ∈ db.screenshots, blob.pageId = pageId →
      ∃ decrypted, decrypt P key blob.screenshot = .resolved decrypted ∧
        getScreenshot P key db pageId = .resolved (some decrypted) := by
    intro blob hblob hid
    obtain ⟨random, s, hs⟩ := hdb.blob_encrypted blob hblob
    have hround : decrypt P key blob.screenshot = .resolved s := by
      rw [hs]
      exact decrypt_encrypt_of_roundtrip P key random s (hP.parse_stringify s)
        (hP.decode_encode s)
    refine ⟨s, hround, ?_⟩
    have hfind := find_blob P key _ hdb blob hblob
    rw [hid] at hfind
    simp only [getScreenshot, hfind, hround]
  have habsent : (∀ blob ∈ db.screenshots, blob.pageId ≠ pageId) →
      getScreenshot P key db pageId = .resolved none := by
    intro hnone
    have hfind : db.screenshots.find? (fun blob => blob.pageId = pageId) = none := by
      rw [List.find?_eq_none]
      intro blob hblob
      simpa using hnone blob hblob
    simp only [getScreenshot, hfind]
  refine ⟨habsent, ?_, hfound, ?_⟩
  · intro random pageData
    have hfind : db.screenshots.find? (fun blob => blob.pageId = db.nextId) = none := by
      rw [List.find?_eq_none]
      intro blob hblob
      have := blob_id_lt P key _ hdb blob hblob
      simp only [decide_eq_true_eq]
      omega
    simp only [savePage_eq, getScreenshot, hfind, and_self]
  · intro error
    by_cases hex : ∃ blob ∈ db.screenshots, blob.pageId = pageId
    · obtain ⟨blob, hblob, hid⟩ := hex
      obtain ⟨decrypted, _, hget⟩ := hfound blob hblob hid
      rw [hget]
      exact fun h => Settled.noConfusion h
    · rw [habsent (fun blob hblob hid => hex ⟨blob, hblob, hid⟩)]
      exact fun h => Settled.noConfusion h

theorem getScreenshot_absent_or_decrypted_witness :
    referencePlatform.Serializes ∧
      retentionExample.Paired referencePlatform 5 ∧
      retentionExample.screenshots.map (fun blob => blob.pageId) = [1, 2] ∧
      getScreenshot referencePlatform 5 retentionExample 1 = .resolved (some "old shot") ∧
      getScreenshot referencePlatform 5 retentionExample 3 = .resolved none ∧
      (savePage referencePlatform 5 [] retentionExample (exampleCapture 7000000000) none).2 =
        .resolved 3 ∧
      ((∀ blob ∈ retentionExample.screenshots, blob.pageId ≠ 1) →
          getScreenshot referencePlatform 5 retentionExample 1 = .resolved none) ∧
        (∀ random pageData,
          (savePage referencePlatform 5 random retentionExample pageData none).2 =
            .resolved retentionExample.nextId ∧
          getScreenshot referencePlatform 5
              (savePage referencePlatform 5 random retentionExample pageData none).1
              retentionExample.nextId = .resolved none) ∧
        (∀ blob ∈ retentionExample.screenshots, blob.pageId = 1 →
          ∃ decrypted, decrypt referencePlatform 5 blob.screenshot = .resolved decrypted ∧
            getScreenshot referencePlatform 5 retentionExample 1 =
              .resolved (some decrypted)) ∧
        ∀ error, getScreenshot referencePlatform 5 retentionExample 1 ≠ .rejected error :=
  ⟨referencePlatform_serializes, retentionExample_paired, by decide, by decide, by decide,
    by decide,
    (getScreenshot_absent_or_decrypted referencePlatform referencePlatform_serializes 5
      exampleOperations 1).2 retentionExample retentionExample_paired⟩

/-- C22: `savePage` with a screenshot adds the record and then, in the success handler, awaits
the encryption before it adds the blob; by then the transaction has finished, so no blob is
stored and the promise never resolves with the id. This holds for every non-empty screenshot,
so no database reached through `savePage` and `cleanOldEntries` holds any blob. On an engine
that is initialised, `savePage` with the data URL of a screenshot stays pending, the record is
stored under the id 1, and `getScreenshot(1)` finds nothing. -/
theorem savePage_loses_screenshot :
    (∀ (CryptoKey : Type) (P : WebPlatform CryptoKey) (key : CryptoKey) (random : List Nat)
        (db : Store) (pageData : PageData) (s : String), s ≠ "" →
        (savePage P key random db pageData (some s)).2 = .pending ∧
        (savePage P key random db pageData (some s)).1.screenshots = db.screenshots ∧
        (savePage P key random db pageData (some s)).1.pages =
          db.pages ++ [{ toPageData := pageData, id := db.nextId }]) ∧
      (∀ (CryptoKey : Type) (P : WebPlatform CryptoKey) (key : CryptoKey)
        (operations : List StoreOperation), (reachedStore P key operations).screenshots = []) ∧
      (ensureInitialized referenceKeys [3, 1, 4, 1, 5] false
        (Worker.start (StorageArea.empty : StorageArea Nat) none)).encryptionKey = some 270 ∧
      (SecureDB.savePage referencePlatform [1, 2, 3, 4, 5, 6, 7, 8, 9, 10, 11, 12]
        (ensureInitialized referenceKeys [3, 1, 4, 1, 5] false
          (Worker.start (StorageArea.empty : StorageArea Nat) none))
        (exampleCapture 5961600000) (some "data:image/jpeg;base64,/9j/4AAQ")).1 = .pending ∧
      (SecureDB.savePage referencePlatform [1, 2, 3, 4, 5, 6, 7, 8, 9, 10, 11, 12]
        (ensureInitialized referenceKeys [3, 1, 4, 1, 5] false
          (Worker.start (StorageArea.empty : StorageArea Nat) none))
        (exampleCapture 5961600000) (some "data:image/jpeg;base64,/9j/4AAQ")).2.pages =
        [{ toPageData := exampleCapture 5961600000, id := 1 }] ∧
      (SecureDB.savePage referencePlatform [1, 2, 3, 4, 5, 6, 7, 8, 9, 10, 11, 12]
        (ensureInitialized referenceKeys [3, 1, 4, 1, 5] false
          (Worker.start (StorageArea.empty : StorageArea Nat) none))
        (exampleCapture 5961600000) (some "data:image/jpeg;base64,/9j/4AAQ")).2.screenshots =
        [] ∧
      SecureDB.getScreenshot referencePlatform
        (SecureDB.savePage referencePlatform [1, 2, 3, 4, 5, 6, 7, 8, 9, 10, 11, 12]
          (ensureInitialized referenceKeys [3, 1, 4, 1, 5] false
            (Worker.start (StorageArea.empty : StorageArea Nat) none))
          (exampleCapture 5961600000) (some "data:image/jpeg;base64,/9j/4AAQ")).2 1 =
        .resolved none := by
  refine ⟨?_, ?_, by decide, by decide, by decide, by decide, by decide⟩
  · intro CryptoKey P key random db pageData s hs
    rw [savePage_eq]
    simp [hs]
  · intro CryptoKey P key operations
    exact screenshots_foldl P key operations Store.empty rfl

/-- C23: the `searchPages` of the single-file `background.js` returns what
`SecureDB.searchPages` returns for the query with its `domain` removed. So the two agree on
every collection and every query whose `domain` is absent or empty, they can differ only on a
query with a non-empty `domain`, and there they do differ: on the three example records the
query for `a.example` gives all three in the single-file version and one in `SecureDB`. -/
theorem inline_search_agrees :
    (∀ (toLowerCase : String → String) (all : List PageRecord) (query : Query),
        query.domain = none ∨ query.domain = some "" →
        inlineSearchPages toLowerCase all query = searchPages toLowerCase all query) ∧
      (∀ (toLowerCase : String → String) (all : List PageRecord) (query : Query),
        inlineSearchPages toLowerCase all query ≠ searchPages toLowerCase all query →
        ∃ domain, query.domain = some domain ∧ domain ≠ "") ∧
      (∀ (toLowerCase : String → String) (all : List PageRecord) (query : Query),
        inlineSearchPages toLowerCase all query =
          searchPages toLowerCase all { query with domain := none }) ∧
      (inlineSearchPages asciiLower domainExamples
          { Query.empty with domain := some "a.example" }).map (fun page => page.id) =
        [3, 2, 1] ∧
      (searchPages asciiLower domainExamples
          { Query.empty with domain := some "a.example" }).map (fun page => page.id) = [1] := by
  have hagree : ∀ (toLowerCase : String → String) (all : List PageRecord) (query : Query),
      query.domain = none ∨ query.domain = some "" →
      inlineSearchPages toLowerCase all query = searchPages toLowerCase all query :=
    fun toLowerCase all query hdomain =>
      (inlineSearchPages_eq toLowerCase all query).trans
        (searchPages_without_domain toLowerCase all query hdomain)
  refine ⟨hagree, ?_, inlineSearchPages_eq, by decide, by decide⟩
  intro toLowerCase all query hdiffer
  cases hdomain : query.domain with
  | none => exact absurd (hagree toLowerCase all query (Or.inl hdomain)) hdiffer
  | some domain =>
    refine ⟨domain, rfl, ?_⟩
    rintro rfl
    exact hdiffer (hagree toLowerCase all query (Or.inr hdomain))

/-- C24: when `deleteAllData` completes it has emptied the key-value store: `enabled`,
`daysToKeep`, `excludeIncognito`, `excludeDomains` and `captureInterval` are unset, like the
key material. From then on, through any tabs finishing to load and any restarts of the worker,
and as long as no setting is written, the settings read by `capturePage` have no `enabled`,
every run of `capturePage` returns at that check with no effect, for every tab, and no page
record is written. -/
theorem wipe_disables_capture {CryptoKey Jwk : Type} (K : KeyPlatform CryptoKey Jwk)
    (P : WebPlatform CryptoKey) (deleteFails : Bool) (w : Worker CryptoKey Jwk)
    (events : List WorkerEvent)
    (hdone : (SecureDB.deleteAllData deleteFails w).1 = .resolved ()) :
    (SecureDB.deleteAllData deleteFails w).2.storage.enabled = none ∧
      (SecureDB.deleteAllData deleteFails w).2.storage.daysToKeep = none ∧
      (SecureDB.deleteAllData deleteFails w).2.storage.excludeIncognito = none ∧
      (SecureDB.deleteAllData deleteFails w).2.storage.excludeDomains = none ∧
      (SecureDB.deleteAllData deleteFails w).2.storage.captureInterval = none ∧
      (SecureDB.deleteAllData deleteFails w).2.storage.encryptionKey = none ∧
      (runEvents K P events (SecureDB.deleteAllData deleteFails w).2).2 = [] ∧
      (runEvents K P events (SecureDB.deleteAllData deleteFails w).2).1.pages = [] ∧
      (∀ (env : CaptureEnv) (tab : Tab),
        ((ensureInitialized K env.entropy env.openFails
            (runEvents K P events (SecureDB.deleteAllData deleteFails w).2).1).storage.get
          ["enabled", "excludeIncognito", "excludeDomains"]).enabled = none ∧
        policyGate env.hostname
          ((ensureInitialized K env.entropy env.openFails
              (runEvents K P events (SecureDB.deleteAllData deleteFails w).2).1).storage.get
            ["enabled", "excludeIncognito", "excludeDomains"]) tab = .skip ∧
        (capturePage K P env tab
          (runEvents K P events (SecureDB.deleteAllData deleteFails w).2).1).2 = [] ∧
        (capturePage K P env tab
          (runEvents K P events (SecureDB.deleteAllData deleteFails w).2).1).1.pages = []) := by
  have hstate := deleteAllData_done deleteFails w hdone
  have hstorage : (SecureDB.deleteAllData deleteFails w).2.storage = StorageArea.empty := by
    rw [hstate]
  have hnopages : (SecureDB.deleteAllData deleteFails w).2.pages = [] := by
    rw [hstate]
    rfl
  generalize (SecureDB.deleteAllData deleteFails w).2 = wiped at hstorage hnopages ⊢
  have hwiped : wiped.storage.enabled ≠ some true := by
    rw [hstorage]
    simp [StorageArea.empty]
  have hrun := runEvents_disabled K P events wiped hwiped
  have henabled : (runEvents K P events wiped).1.storage.enabled = none := by
    rw [hrun.2.2.2, hstorage]
    rfl
  have hpages : (runEvents K P events wiped).1.pages = [] := hrun.2.1.trans hnopages
  refine ⟨by rw [hstorage]; rfl, by rw [hstorage]; rfl, by rw [hstorage]; rfl,
    by rw [hstorage]; rfl, by rw [hstorage]; rfl, by rw [hstorage]; rfl, hrun.1, hpages, ?_⟩
  intro env tab
  have hdisabled : (runEvents K P events wiped).1.storage.enabled ≠ some true := by
    rw [henabled]
    exact fun h => Option.noConfusion h
  have hread : ((ensureInitialized K env.entropy env.openFails
      (runEvents K P events wiped).1).storage.get
        ["enabled", "excludeIncognito", "excludeDomains"]).enabled = none := by
    rw [ensureInitialized_settings]
    simpa [StorageArea.get] using henabled
  refine ⟨hread, ?_, ?_, ?_⟩
  · apply policyGate_disabled
    rw [hread]
    exact fun h => Option.noConfusion h
  · rw [capturePage_disabled K P env tab _ hdisabled]
  · rw [capturePage_disabled K P env tab _ hdisabled]
    exact (ensureInitialized_records K env.entropy env.openFails _).1.trans hpages

theorem wipe_disables_capture_witness :
    (ensureInitialized referenceKeys [3, 1, 4, 1, 5] true freshWorker).connection = false ∧
      (SecureDB.deleteAllData false
        (ensureInitialized referenceKeys [3, 1, 4, 1, 5] true freshWorker)).1 = .resolved () ∧
      (ensureInitialized referenceKeys [3, 1, 4, 1, 5] true freshWorker).storage.enabled =
        some true ∧
      (capturePage referenceKeys referencePlatform arrayReplyEnv exampleTab freshWorker).2 ≠
        [] ∧
      (runEvents referenceKeys referencePlatform
        [.tabComplete arrayReplyEnv exampleTab, .restart, .tabComplete exampleEnv httpxTab]
        (SecureDB.deleteAllData false
          (ensureInitialized referenceKeys [3, 1, 4, 1, 5] true freshWorker)).2).2 = [] ∧
      (runEvents referenceKeys referencePlatform
        [.tabComplete arrayReplyEnv exampleTab, .restart, .tabComplete exampleEnv httpxTab]
        (SecureDB.deleteAllData false
          (ensureInitialized referenceKeys [3, 1, 4, 1, 5] true freshWorker)).2).1.pages = [] ∧
      (SecureDB.deleteAllData false
        (ensureInitialized referenceKeys [3, 1, 4, 1, 5] true freshWorker)).2.storage =
        StorageArea.empty :=
  ⟨by decide, by decide, by decide, by decide,
    (wipe_disables_capture referenceKeys referencePlatform false
      (ensureInitialized referenceKeys [3, 1, 4, 1, 5] true freshWorker)
      [.tabComplete arrayReplyEnv exampleTab, .restart, .tabComplete exampleEnv httpxTab]
      (by decide)).2.2.2.2.2.2.1,
    (wipe_disables_capture referenceKeys referencePlatform false
      (ensureInitialized referenceKeys [3, 1, 4, 1, 5] true freshWorker)
      [.tabComplete arrayReplyEnv exampleTab, .restart, .tabComplete exampleEnv httpxTab]
      (by decide)).2.2.2.2.2.2.2.1,
    by decide⟩

end VisualHistory
